import Mathlib

/-!
# yookassa-sdk-go: webhook source-IP verification and resource handlers

A shallow embedding of

* `yookassa/webhook/verification.go` (`trustedCIDRs`, `init`,
  `IsNotificationIPTrusted`, `GetTrustedIPRanges`),
* `yookassa/payouts.go` and `yookassa/refunds.go` (the handler operations),

together with the parts of the Go standard library (`net`, `net/netip`) the
webhook code calls: `net.ParseIP`, `net.ParseCIDR`, `net.CIDRMask`, `IP.Mask`,
`IP.To4`, `IPNet.Contains`, `netip.ParseAddr`.

Conventions.

* A Go `string` is a sequence of bytes.  A Lean `String` stands for the Go
  string holding its UTF-8 encoding (`str`); the parsers work on the byte list,
  each byte a `Nat`, exactly as the Go code indexes `s[i]`.
* A Go `net.IP` / `net.IPMask` is a byte slice: `List Nat`; `nil` is `none`
  where the code tests for it.
* Go `int` arithmetic is `Nat` arithmetic (all values here are small and
  non-negative); `uint32`/`uint8`/`byte` conversions are explicit `%`.
-/

namespace Yookassa

/-! ## Go strings as byte sequences -/

/-- The bytes of a Go string literal: the UTF-8 encoding of the text. -/
def str (s : String) : List Nat :=
  s.toUTF8.data.toList.map UInt8.toNat

/-! ## `net/netip`: parsing -/

/-- The loop of `netip.parseIPv4Fields` (one step per byte of `s`).
`prev` is `s[i-1]` (`none` exactly when `i == 0`); the list is `s[i:]`, so
`i == len(s)-1` is "nothing follows the current byte".  Returns the four
fields, or `none` where the Go code returns a `parseAddrError`. -/
def parseIPv4Loop : List Nat → Option Nat → Nat → Nat → Nat → List Nat → Option (List Nat)
  | [], _, val, pos, _, fields =>
      if pos < 3 then none                       -- "IPv4 address too short"
      else some (fields.set 3 (val % 256))
  | c :: rest, prev, val, pos, digLen, fields =>
      if 48 ≤ c ∧ c ≤ 57 then                    -- '0' <= s[i] <= '9'
        if digLen = 1 ∧ val = 0 then none        -- octet with leading zero
        else
          let val1 := val * 10 + c - 48
          if val1 > 255 then none                -- field has value >255
          else parseIPv4Loop rest (some c) val1 pos (digLen + 1) fields
      else if c = 46 then                        -- '.'
        if prev = none ∨ rest = [] ∨ prev = some 46 then none
        else if pos = 3 then none                -- "IPv4 address too long"
        else parseIPv4Loop rest (some c) 0 (pos + 1) 0 (fields.set pos (val % 256))
      else none                                  -- "unexpected character"

/-- The function `netip.parseIPv4Fields` on the whole of `s`: the four octets. -/
def parseIPv4Fields (s : List Nat) : Option (List Nat) :=
  parseIPv4Loop s none 0 0 0 [0, 0, 0, 0]

/-- The inner loop of `netip.parseIPv6` that reads one hex group: the list is
`s[off:]`; returns `(off, acc)` at the `break` (or at the end of `s`), `none`
on the two error returns. -/
def hexLoop : List Nat → Nat → Nat → Option (Nat × Nat)
  | [], off, acc => some (off, acc)
  | c :: rest, off, acc =>
      if 48 ≤ c ∧ c ≤ 57 then
        let acc1 := (acc * 16 + (c - 48)) % 2 ^ 32
        if off > 3 then none else if acc1 > 65535 then none
        else hexLoop rest (off + 1) acc1
      else if 97 ≤ c ∧ c ≤ 102 then
        let acc1 := (acc * 16 + (c - 97 + 10)) % 2 ^ 32
        if off > 3 then none else if acc1 > 65535 then none
        else hexLoop rest (off + 1) acc1
      else if 65 ≤ c ∧ c ≤ 70 then
        let acc1 := (acc * 16 + (c - 65 + 10)) % 2 ^ 32
        if off > 3 then none else if acc1 > 65535 then none
        else hexLoop rest (off + 1) acc1
      else some (off, acc)

/-- The main loop `for i < 16 { ... }` of `netip.parseIPv6`.  The result is
the state `(s, i, ip, ellipsis)` at loop exit, `none` on an error return.
`ellipsis` is `none` for the Go value `-1`.  Each round adds at least 2 to
`i`, so 8 rounds of `fuel` always suffice (`parseIPv6Loop_fuel`). -/
def parseIPv6Loop : Nat → List Nat → Nat → List Nat → Option Nat →
    Option (List Nat × Nat × List Nat × Option Nat)
  | 0, s, i, ip, ellipsis => if i < 16 then none else some (s, i, ip, ellipsis)
  | fuel + 1, s, i, ip, ellipsis =>
      if ¬ i < 16 then some (s, i, ip, ellipsis)
      else
        match hexLoop s 0 0 with
        | none => none
        | some (off, acc) =>
          if off = 0 then none                   -- no digits found
          else if off < s.length ∧ s.getD off 0 = 46 then
            -- followed by dot: trailing IPv4
            if ellipsis = none ∧ i ≠ 12 then none
            else if i + 4 > 16 then none
            else
              match parseIPv4Fields s with
              | none => none
              | some f =>
                some ([], i + 4,
                  (((ip.set i (f.getD 0 0)).set (i + 1) (f.getD 1 0)).set (i + 2)
                    (f.getD 2 0)).set (i + 3) (f.getD 3 0),
                  ellipsis)
          else
            -- save this 16-bit chunk
            let ip1 := (ip.set i ((acc / 256) % 256)).set (i + 1) (acc % 256)
            let i1 := i + 2
            let s1 := s.drop off
            if s1.length = 0 then some (s1, i1, ip1, ellipsis)
            else if s1.getD 0 0 ≠ 58 then none   -- want colon
            else if s1.length = 1 then none      -- colon must be followed by more
            else
              let s2 := s1.drop 1
              if s2.getD 0 0 = 58 then           -- ellipsis
                if ellipsis ≠ none then none     -- multiple ::
                else
                  let s3 := s2.drop 1
                  if s3.length = 0 then some (s3, i1, ip1, some i1)
                  else parseIPv6Loop fuel s3 i1 ip1 (some i1)
              else parseIPv6Loop fuel s2 i1 ip1 ellipsis

/-- The first loop of the ellipsis expansion in `netip.parseIPv6`:
`for j := i-1; j >= ellipsis; j-- { ip[j+n] = ip[j] }`, `k` counting the
rounds still to run (`j = ellipsis + k - 1`). -/
def shiftLoop (ellipsis n : Nat) : Nat → List Nat → List Nat
  | 0, ip => ip
  | k + 1, ip => shiftLoop ellipsis n k (ip.set (ellipsis + k + n) (ip.getD (ellipsis + k) 0))

/-- The builtin `clear(ip[lo : lo+n])`. -/
def clearRange (lo : Nat) : Nat → List Nat → List Nat
  | 0, ip => ip
  | n + 1, ip => clearRange lo n (ip.set (lo + n) 0)

/-- A `netip.Addr`: the 16 address bytes (an IPv4 address is held in its
IPv4-mapped form), whether it is an IPv4 address (`z == z4`), and the zone. -/
structure Addr where
  bytes : List Nat
  is4 : Bool
  zone : List Nat
  deriving DecidableEq, Repr

/-- The constructor `netip.AddrFrom4`. -/
def AddrFrom4 (f : List Nat) : Addr :=
  { bytes := [0, 0, 0, 0, 0, 0, 0, 0, 0, 0, 255, 255,
              f.getD 0 0, f.getD 1 0, f.getD 2 0, f.getD 3 0],
    is4 := true, zone := [] }

/-- The function `netip.parseIPv4`. -/
def parseIPv4 (s : List Nat) : Option Addr :=
  match parseIPv4Fields s with
  | none => none
  | some fields => some (AddrFrom4 fields)

/-- Index of the first byte `b` in `s` (`bytealg.IndexByteString`), `none` for `-1`. -/
def indexByte (s : List Nat) (b : Nat) : Option Nat :=
  let i := s.indexOf b
  if i < s.length then some i else none

/-- The function `netip.parseIPv6`. -/
def parseIPv6 (input : List Nat) : Option Addr :=
  -- split off the zone
  match (match indexByte input 37 with
         | none => some (input, ([] : List Nat))
         | some i =>
           let zone := input.drop (i + 1)
           if zone = [] then none else some (input.take i, zone)) with
  | none => none                                  -- zone must be non-empty
  | some (s, zone) =>
    let ip0 : List Nat := List.replicate 16 0
    -- might have leading ellipsis
    let lead := decide (s.length ≥ 2 ∧ s.getD 0 0 = 58 ∧ s.getD 1 0 = 58)
    let ellipsis0 : Option Nat := if lead then some 0 else none
    let s0 := if lead then s.drop 2 else s
    if lead ∧ s0.length = 0 then
      some { bytes := ip0, is4 := false, zone := zone }   -- IPv6Unspecified
    else
      match parseIPv6Loop 8 s0 0 ip0 ellipsis0 with
      | none => none
      | some (s1, i, ip, ellipsis) =>
        if s1.length ≠ 0 then none                -- trailing garbage
        else if i < 16 then
          match ellipsis with
          | none => none                          -- address string too short
          | some e =>
            let n := 16 - i
            some { bytes := clearRange e n (shiftLoop e n (i - e) ip),
                   is4 := false, zone := zone }
        else if ellipsis ≠ none then none         -- :: must expand to a field
        else some { bytes := ip, is4 := false, zone := zone }

/-- The dispatch loop of `netip.ParseAddr`: the first of `.`, `:`, `%` in `s`
decides the parser; `s` is the whole string, the list the bytes still to scan. -/
def parseAddrScan (s : List Nat) : List Nat → Option Addr
  | [] => none                                    -- unable to parse IP
  | c :: rest =>
      if c = 46 then parseIPv4 s
      else if c = 58 then parseIPv6 s
      else if c = 37 then none                    -- missing IPv6 address
      else parseAddrScan s rest

/-- The function `netip.ParseAddr`. -/
def ParseAddr (s : List Nat) : Option Addr :=
  parseAddrScan s s

/-- The method `Addr.BitLen`. -/
def Addr.BitLen (a : Addr) : Nat := if a.is4 then 32 else 128

/-! ## `net`: `ParseIP`, `ParseCIDR`, `IPNet.Contains` -/

/-- The function `net.ParseIP`: the 16-byte form of the address, `none` for `nil`
(parse error, or an address with a zone). -/
def ParseIP (s : List Nat) : Option (List Nat) :=
  match ParseAddr s with
  | none => none
  | some ip => if ip.zone ≠ [] then none else some ip.bytes

/-- The method `IP.To4`: the 4-byte form of an IPv4 address, `none` for `nil`. -/
def To4 (ip : List Nat) : Option (List Nat) :=
  if ip.length = 4 then some ip
  else if ip.length = 16 ∧ (ip.take 10).all (fun b => b = 0) ∧
      ip.getD 10 0 = 255 ∧ ip.getD 11 0 = 255 then
    some ((ip.drop 12).take 4)
  else none

/-- The loop of `net.dtoi`: `(n, i, ok)` with the list `s[i:]`. -/
def dtoiLoop : List Nat → Nat → Nat → Nat × Nat × Bool
  | [], n, i => if i = 0 then (0, 0, false) else (n, i, true)
  | c :: rest, n, i =>
      if 48 ≤ c ∧ c ≤ 57 then
        let n1 := n * 10 + (c - 48)
        if n1 ≥ 16777215 then (16777215, i, false)
        else dtoiLoop rest n1 (i + 1)
      else if i = 0 then (0, 0, false) else (n, i, true)

/-- The function `net.dtoi`: decimal to integer. -/
def dtoi (s : List Nat) : Nat × Nat × Bool := dtoiLoop s 0 0

/-- The loop of `net.CIDRMask`: `l` bytes still to write, `n` one-bits left. -/
def cidrMaskLoop : Nat → Nat → List Nat
  | 0, _ => []
  | l + 1, n =>
      if n ≥ 8 then 255 :: cidrMaskLoop l (n - 8)
      else (255 - 255 / 2 ^ n) :: cidrMaskLoop l 0   -- ^byte(0xff >> n)

/-- The function `net.CIDRMask`, `none` for `nil`. -/
def CIDRMask (ones bits : Nat) : Option (List Nat) :=
  if bits ≠ 32 ∧ bits ≠ 128 then none
  else if ones > bits then none
  else some (cidrMaskLoop (bits / 8) ones)

/-- The bytes `v4InV6Prefix` of package `net`. -/
def v4InV6Prefix : List Nat := [0, 0, 0, 0, 0, 0, 0, 0, 0, 0, 255, 255]

/-- The method `IP.Mask`, `none` for `nil`. -/
def Mask (ip mask : List Nat) : Option (List Nat) :=
  let mask1 := if mask.length = 16 ∧ ip.length = 4 ∧ (mask.take 12).all (fun b => b = 255)
    then mask.drop 12 else mask
  let ip1 := if mask1.length = 4 ∧ ip.length = 16 ∧ ip.take 12 = v4InV6Prefix
    then ip.drop 12 else ip
  if ip1.length ≠ mask1.length then none
  else some (List.zipWith (fun a b => a &&& b) ip1 mask1)

/-- A `net.IPNet`: network number and mask. -/
structure IPNet where
  IP : List Nat
  Mask : List Nat
  deriving DecidableEq, Repr

/-- The function `net.ParseCIDR`: the address and the network, `none` on a
`ParseError`. -/
def ParseCIDR (s : List Nat) : Option (List Nat × IPNet) :=
  match indexByte s 47 with
  | none => none
  | some i =>
    let addr := s.take i
    let mask := s.drop (i + 1)
    match ParseAddr addr with
    | none => none
    | some ipAddr =>
      if ipAddr.zone ≠ [] then none
      else
        match dtoi mask with
        | (n, j, ok) =>
          if ¬ ok ∨ j ≠ mask.length ∨ n > ipAddr.BitLen then none
          else
            match CIDRMask n ipAddr.BitLen with
            | none => none
            | some m =>
              match Mask ipAddr.bytes m with
              | none => none
              | some nip => some (ipAddr.bytes, { IP := nip, Mask := m })

/-- The function `net.networkNumberAndMask`; `none` for the `nil, nil` return. -/
def networkNumberAndMask (n : IPNet) : Option (List Nat × List Nat) :=
  match (match To4 n.IP with
         | some ip => some ip
         | none => if n.IP.length ≠ 16 then none else some n.IP) with
  | none => none
  | some ip =>
    if n.Mask.length = 4 then
      if ip.length ≠ 4 then none else some (ip, n.Mask)
    else if n.Mask.length = 16 then
      if ip.length = 4 then some (ip, n.Mask.drop 12) else some (ip, n.Mask)
    else none

/-- The comparison loop of `IPNet.Contains` over the bytes of `nn`, `m`, `ip`
(all of the same length `l`). -/
def containsLoop : List Nat → List Nat → List Nat → Bool
  | n :: nn, m :: ms, x :: ip =>
      if n &&& m ≠ x &&& m then false else containsLoop nn ms ip
  | _, _, _ => true

/-- The method `IPNet.Contains`. -/
def IPNet.Contains (n : IPNet) (ip : List Nat) : Bool :=
  let nnm := networkNumberAndMask n
  let nn := (nnm.map Prod.fst).getD []
  let m := (nnm.map Prod.snd).getD []
  let ip1 := match To4 ip with
    | some x => x
    | none => ip
  let l := ip1.length
  if l ≠ nn.length then false
  else containsLoop nn m ip1

/-! ## `yookassa/webhook/verification.go` -/

/-- A Go slice header over an array of strings: the backing array (an index
into the store of arrays), length and capacity; the offset is always 0 here. -/
structure Slice where
  arr : Nat
  len : Nat
  cap : Nat
  deriving DecidableEq, Repr

/-- The state of package `yoowebhook` and of the string arrays of the
program: every `[]string` backing array allocated so far, and the two
package-level variables. -/
structure Pkg where
  arrays : List (List String)
  trustedCIDRs : Slice
  trustedNetworks : List IPNet
  deriving DecidableEq, Repr

/-- The elements `s[0:len(s)]` of a slice. -/
def sliceElems (g : Pkg) (s : Slice) : List String :=
  (g.arrays.getD s.arr []).take s.len

/-- The literal list of `var trustedCIDRs = []string{...}`. -/
def trustedCIDRsLiteral : List String :=
  [ "185.71.76.0/27",
    "185.71.77.0/27",
    "77.75.153.0/25",
    "77.75.154.128/25",
    "77.75.156.11/32",
    "77.75.156.35/32",
    "2a02:5180::/32" ]

/-- The package state after the variable initialisers, before `init()`:
`trustedCIDRs` is a slice over a fresh array holding the literal list,
`trustedNetworks` is `nil`. -/
def varInit : Pkg :=
  { arrays := [trustedCIDRsLiteral],
    trustedCIDRs := { arr := 0, len := trustedCIDRsLiteral.length,
                      cap := trustedCIDRsLiteral.length },
    trustedNetworks := [] }

/-- The loop of `init()`: `Except.error` is the `panic`. -/
def initLoop : List String → List IPNet → Except String (List IPNet)
  | [], nets => .ok nets
  | cidr :: rest, nets =>
      match ParseCIDR (str cidr) with
      | none => .error ("invalid CIDR in trustedCIDRs: " ++ cidr)
      | some (_, network) => initLoop rest (nets ++ [network])

/-- The function `init()` of package `yoowebhook`. -/
def init (g : Pkg) : Except String Pkg :=
  match initLoop (sliceElems g g.trustedCIDRs) [] with
  | .error e => .error e
  | .ok nets => .ok { g with trustedNetworks := nets }

/-- The package state once the package is initialised (variable initialisers,
then `init()`); a panic in `init()` would leave no running program. -/
def loaded : Pkg :=
  match init varInit with
  | .ok g => g
  | .error _ => varInit

/-- The loop `for _, network := range trustedNetworks` of
`IsNotificationIPTrusted`. -/
def anyContains : List IPNet → List Nat → Bool
  | [], _ => false
  | network :: rest, parsedIP =>
      if network.Contains parsedIP then true else anyContains rest parsedIP

/-- The function `IsNotificationIPTrusted`. -/
def IsNotificationIPTrusted (g : Pkg) (ip : String) : Bool :=
  match ParseIP (str ip) with
  | none => false
  | some parsedIP => anyContains g.trustedNetworks parsedIP

/-- The builtin `make([]string, n)`: a fresh zeroed array and a slice over it. -/
def make (g : Pkg) (n : Nat) : Slice × Pkg :=
  ({ arr := g.arrays.length, len := n, cap := n },
   { g with arrays := g.arrays ++ [List.replicate n ""] })

/-- The builtin `copy(dst, src)`: the first `min(len(dst), len(src))` elements
of `src` overwrite those of `dst`. -/
def copy (g : Pkg) (dst src : Slice) : Pkg :=
  let n := min dst.len src.len
  let written := (sliceElems g src).take n ++ (g.arrays.getD dst.arr []).drop n
  { g with arrays := g.arrays.set dst.arr written }

/-- The function `GetTrustedIPRanges`: the returned slice and the new state. -/
def GetTrustedIPRanges (g : Pkg) : Slice × Pkg :=
  let (result, g1) := make g g.trustedCIDRs.len
  (result, copy g1 result g.trustedCIDRs)

/-- An assignment `s[i] = v` by a caller holding the slice `s` (directly, or
through a reslice up to its capacity).  `none` is the index-out-of-range panic. -/
def assignIndex (g : Pkg) (s : Slice) (i : Nat) (v : String) : Option Pkg :=
  if i < s.cap then
    some { g with arrays := g.arrays.set s.arr ((g.arrays.getD s.arr []).set i v) }
  else none

/-- What code outside the package can do with the registry, one step at a
time: call `GetTrustedIPRanges` and keep the result, or assign to an element
of a slice obtained earlier (`k` counts the kept slices, oldest first). -/
inductive CallerStep where
  | call
  | assign (k i : Nat) (v : String)
  deriving Repr

/-- One caller step on the package state and the slices the caller holds; an
assignment that panics, or names a slice the caller does not hold, changes
nothing. -/
def callerStep (w : Pkg × List Slice) : CallerStep → Pkg × List Slice
  | .call =>
      let (r, g1) := GetTrustedIPRanges w.1
      (g1, w.2 ++ [r])
  | .assign k i v =>
      match w.2.get? k with
      | none => w
      | some s =>
        match assignIndex w.1 s i v with
        | none => w
        | some g1 => (g1, w.2)

/-- A sequence of caller steps. -/
def callerRun (w : Pkg × List Slice) (steps : List CallerStep) : Pkg × List Slice :=
  steps.foldl callerStep w

/-! ## `yookassa/payouts.go` and `yookassa/refunds.go`

The handlers call code that is not part of these two files: the HTTP client
(`Client.makeRequest`), the error decoder (`yooerror.GetError`), the JSON
codec and the entity types of packages `yoopayout` and `yoorefund`.  All of
it is taken as a parameter (`Types`, `Deps`). -/

/-- A Go `error` value: one made by `errors.New`, or one produced by a
collaborator (transport, provider or decode error), kept opaque. -/
inductive GoError where
  | errorsNew (msg : String)
  | external (id : Nat)
  deriving DecidableEq, Repr

/-- The types the handlers take from other packages. -/
structure Types where
  Client : Type
  Ctx : Type
  Body : Type
  Params : Type
  Payout : Type
  SbpBank : Type
  SbpBankList : Type
  Refund : Type
  RefundList : Type
  RefundListFilter : Type

/-- The arguments of one call `client.makeRequest(ctx, method, endpoint,
body, params, idempotencyKey)`, receiver included. -/
structure Request (T : Types) where
  client : T.Client
  ctx : T.Ctx
  method : String
  endpoint : String
  body : Option (List Nat)
  params : Option T.Params
  idempotencyKey : String

/-- The two fields of an `http.Response` the handlers read. -/
structure Response (T : Types) where
  StatusCode : Int
  Body : T.Body

/-- The collaborators.  A Go result `(x, err)` whose `x` is used only when
`err == nil` is an `Except`; `GetError` keeps its two results, since the
handlers return either of them. -/
structure Deps (T : Types) where
  makeRequest : Request T → Except GoError (Response T)
  GetError : T.Body → Option GoError × Option GoError
  Background : T.Ctx
  PayoutTypeSBP : String
  payoutDestinationType : T.Payout → String
  marshalIndentPayout : T.Payout → Except GoError (List Nat)
  decodePayout : T.Body → Except GoError T.Payout
  decodeSbpBankList : T.Body → Except GoError T.SbpBankList
  items : T.SbpBankList → List T.SbpBank
  marshalRefund : T.Refund → Except GoError (List Nat)
  marshalFilter : T.RefundListFilter → Except GoError (List Nat)
  unmarshalParams : List Nat → Except GoError T.Params
  readAll : T.Body → Except GoError (List Nat)
  unmarshalRefund : List Nat → Except GoError T.Refund
  unmarshalRefundList : List Nat → Except GoError T.RefundList

/-- What a handler operation does: the two Go results (`none` is `nil`) and
the requests it handed to the HTTP client, in order. -/
structure Outcome (T : Types) (α : Type) where
  value : Option α
  err : Option GoError
  sent : List (Request T)

/-- The constant `SbpBanksEndpoint`. -/
def SbpBanksEndpoint : String := "sbp_banks"

/-- The constant `PayoutsEndpoint`. -/
def PayoutsEndpoint : String := "payouts"

/-- The constant `RefundEndpoint`. -/
def RefundEndpoint : String := "refunds"

/-- The struct `PayoutHandler`. -/
structure PayoutHandler (T : Types) where
  client : T.Client
  idempotencyKey : String

/-- The struct `RefundHandler`. -/
structure RefundHandler (T : Types) where
  client : T.Client
  idempotencyKey : String

variable {T : Types}

/-- The function `NewPayoutHandler`: a new handler in the store of handler
objects `mem`, and the pointer to it (its index). -/
def NewPayoutHandler (mem : List (PayoutHandler T)) (client : T.Client) :
    Nat × List (PayoutHandler T) :=
  (mem.length, mem ++ [{ client := client, idempotencyKey := "" }])

/-- The method `PayoutHandler.WithIdempotencyKey`: value receiver `p` (the
caller's handler, copied at the call), assignment to the copy, `return &p`:
the copy is a new object of the store. -/
def PayoutHandler.WithIdempotencyKey (mem : List (PayoutHandler T)) (p : PayoutHandler T)
    (idempotencyKey : String) : Nat × List (PayoutHandler T) :=
  let p1 := { p with idempotencyKey := idempotencyKey }
  (mem.length, mem ++ [p1])

/-- The function `NewRefundHandler`. -/
def NewRefundHandler (mem : List (RefundHandler T)) (client : T.Client) :
    Nat × List (RefundHandler T) :=
  (mem.length, mem ++ [{ client := client, idempotencyKey := "" }])

/-- The method `RefundHandler.WithIdempotencyKey`: value receiver, result by
value; the store of handler objects is not written. -/
def RefundHandler.WithIdempotencyKey (mem : List (RefundHandler T)) (r : RefundHandler T)
    (idempotencyKey : String) : RefundHandler T × List (RefundHandler T) :=
  let r1 := { r with idempotencyKey := idempotencyKey }
  (r1, mem)

/-- The method `PayoutHandler.GetSbpBanksCtx`. -/
def PayoutHandler.GetSbpBanksCtx (d : Deps T) (p : PayoutHandler T) (ctx : T.Ctx) :
    Outcome T (List T.SbpBank) :=
  let req : Request T := ⟨p.client, ctx, "GET", SbpBanksEndpoint, none, none, p.idempotencyKey⟩
  match d.makeRequest req with
  | .error err => ⟨none, some err, [req]⟩
  | .ok resp =>
    if resp.StatusCode ≠ 200 then
      match d.GetError resp.Body with
      | (_, some err) => ⟨none, some err, [req]⟩
      | (respError, none) => ⟨none, respError, [req]⟩
    else
      match d.decodeSbpBankList resp.Body with
      | .error err => ⟨none, some err, [req]⟩
      | .ok sbpBanks => ⟨some (d.items sbpBanks), none, [req]⟩

/-- The method `PayoutHandler.CreatePayoutCtx`. -/
def PayoutHandler.CreatePayoutCtx (d : Deps T) (p : PayoutHandler T) (ctx : T.Ctx)
    (payout : T.Payout) : Outcome T T.Payout :=
  if d.payoutDestinationType payout ≠ d.PayoutTypeSBP then
    ⟨none, some (GoError.errorsNew "unsupported payout type"), []⟩
  else
    match d.marshalIndentPayout payout with
    | .error err => ⟨none, some err, []⟩
    | .ok payoutJson =>
      let req : Request T :=
        ⟨p.client, ctx, "POST", PayoutsEndpoint, some payoutJson, none, p.idempotencyKey⟩
      match d.makeRequest req with
      | .error err => ⟨none, some err, [req]⟩
      | .ok resp =>
        if resp.StatusCode ≠ 200 then
          match d.GetError resp.Body with
          | (_, some err) => ⟨none, some err, [req]⟩
          | (respError, none) => ⟨none, respError, [req]⟩
        else
          match d.decodePayout resp.Body with
          | .error err => ⟨none, some err, [req]⟩
          | .ok createdPayout => ⟨some createdPayout, none, [req]⟩

/-- The method `PayoutHandler.CreatePayout` (deprecated). -/
def PayoutHandler.CreatePayout (d : Deps T) (p : PayoutHandler T) (payout : T.Payout) :
    Outcome T T.Payout :=
  p.CreatePayoutCtx d d.Background payout

/-- The method `PayoutHandler.GetPayoutCtx`. -/
def PayoutHandler.GetPayoutCtx (d : Deps T) (p : PayoutHandler T) (ctx : T.Ctx)
    (payoutId : String) : Outcome T T.Payout :=
  let endpoint := PayoutsEndpoint ++ "/" ++ payoutId
  let req : Request T := ⟨p.client, ctx, "GET", endpoint, none, none, p.idempotencyKey⟩
  match d.makeRequest req with
  | .error err => ⟨none, some err, [req]⟩
  | .ok resp =>
    if resp.StatusCode ≠ 200 then
      match d.GetError resp.Body with
      | (_, some err) => ⟨none, some err, [req]⟩
      | (respError, none) => ⟨none, respError, [req]⟩
    else
      match d.decodePayout resp.Body with
      | .error err => ⟨none, some err, [req]⟩
      | .ok payout => ⟨some payout, none, [req]⟩

/-- The method `RefundHandler.parseRefundResponse`: the two Go results. -/
def RefundHandler.parseRefundResponse (d : Deps T) (resp : Response T) :
    Option T.Refund × Option GoError :=
  match d.readAll resp.Body with
  | .error err => (none, some err)
  | .ok responseBytes =>
    match d.unmarshalRefund responseBytes with
    | .error err => (none, some err)
    | .ok refundResponse => (some refundResponse, none)

/-- The method `RefundHandler.CreateRefundCtx`. -/
def RefundHandler.CreateRefundCtx (d : Deps T) (r : RefundHandler T) (ctx : T.Ctx)
    (refund : T.Refund) : Outcome T T.Refund :=
  match d.marshalRefund refund with
  | .error err => ⟨none, some err, []⟩
  | .ok refundJson =>
    let req : Request T :=
      ⟨r.client, ctx, "POST", RefundEndpoint, some refundJson, none, r.idempotencyKey⟩
    match d.makeRequest req with
    | .error err => ⟨none, some err, [req]⟩
    | .ok resp =>
      if resp.StatusCode ≠ 200 then
        match d.GetError resp.Body with
        | (_, some err) => ⟨none, some err, [req]⟩
        | (respError, none) => ⟨none, respError, [req]⟩
      else
        match RefundHandler.parseRefundResponse d resp with
        | (_, some err) => ⟨none, some err, [req]⟩
        | (refundResponse, none) => ⟨refundResponse, none, [req]⟩

/-- The method `RefundHandler.FindRefundCtx`. -/
def RefundHandler.FindRefundCtx (d : Deps T) (r : RefundHandler T) (ctx : T.Ctx)
    (id : String) : Outcome T T.Refund :=
  let endpoint := RefundEndpoint ++ "/" ++ id
  let req : Request T := ⟨r.client, ctx, "GET", endpoint, none, none, r.idempotencyKey⟩
  match d.makeRequest req with
  | .error err => ⟨none, some err, [req]⟩
  | .ok resp =>
    if resp.StatusCode ≠ 200 then
      match d.GetError resp.Body with
      | (_, some err) => ⟨none, some err, [req]⟩
      | (respError, none) => ⟨none, respError, [req]⟩
    else
      match RefundHandler.parseRefundResponse d resp with
      | (_, some err) => ⟨none, some err, [req]⟩
      | (refundResponse, none) => ⟨refundResponse, none, [req]⟩

/-- The method `RefundHandler.FindRefundsCtx`. -/
def RefundHandler.FindRefundsCtx (d : Deps T) (r : RefundHandler T) (ctx : T.Ctx)
    (filter : T.RefundListFilter) : Outcome T T.RefundList :=
  match d.marshalFilter filter with
  | .error err => ⟨none, some err, []⟩
  | .ok filterJson =>
    match d.unmarshalParams filterJson with
    | .error err => ⟨none, some err, []⟩
    | .ok filterMap =>
      let req : Request T :=
        ⟨r.client, ctx, "GET", RefundEndpoint, none, some filterMap, r.idempotencyKey⟩
      match d.makeRequest req with
      | .error err => ⟨none, some err, [req]⟩
      | .ok resp =>
        if resp.StatusCode ≠ 200 then
          match d.GetError resp.Body with
          | (_, some err) => ⟨none, some err, [req]⟩
          | (respError, none) => ⟨none, respError, [req]⟩
        else
          match d.readAll resp.Body with
          | .error err => ⟨none, some err, [req]⟩
          | .ok responseBytes =>
            match d.unmarshalRefundList responseBytes with
            | .error err => ⟨none, some err, [req]⟩
            | .ok refundsResponse => ⟨some refundsResponse, none, [req]⟩

/-! ## Definitions used to state the properties -/

/-- The seven parsed networks `init()` builds. -/
def registryNetworks : List IPNet :=
  [ ⟨[185, 71, 76, 0], [255, 255, 255, 224]⟩,
    ⟨[185, 71, 77, 0], [255, 255, 255, 224]⟩,
    ⟨[77, 75, 153, 0], [255, 255, 255, 128]⟩,
    ⟨[77, 75, 154, 128], [255, 255, 255, 128]⟩,
    ⟨[77, 75, 156, 11], [255, 255, 255, 255]⟩,
    ⟨[77, 75, 156, 35], [255, 255, 255, 255]⟩,
    ⟨[42, 2, 81, 128, 0, 0, 0, 0, 0, 0, 0, 0, 0, 0, 0, 0],
     [255, 255, 255, 255, 0, 0, 0, 0, 0, 0, 0, 0, 0, 0, 0, 0]⟩ ]

/-- The address and the prefix length written in each literal of `trustedCIDRs`. -/
def literalParts : List (String × String) :=
  [ ("185.71.76.0", "27"), ("185.71.77.0", "27"), ("77.75.153.0", "25"),
    ("77.75.154.128", "25"), ("77.75.156.11", "32"), ("77.75.156.35", "32"),
    ("2a02:5180::", "32") ]

/-- The form `net` compares addresses in: 4 bytes for an IPv4 address. -/
def canonicalIP (ip : List Nat) : List Nat :=
  match To4 ip with
  | some x => x
  | none => ip

/-- Concrete types for examples: every foreign type is `Nat`. -/
def natTypes : Types :=
  { Client := Nat, Ctx := Nat, Body := Nat, Params := Nat, Payout := Nat, SbpBank := Nat,
    SbpBankList := Nat, Refund := Nat, RefundList := Nat, RefundListFilter := Nat }

/-- Concrete collaborators for examples: the client answers every request with
the status given and body 5; a payout `n` has destination type "sbp" when
`n = 0` and "bank_card" otherwise; every codec is the identity on numbers. -/
def natDeps (status : Int) : Deps natTypes :=
  { makeRequest := fun _ => .ok { StatusCode := status, Body := (5 : Nat) },
    GetError := fun (b : Nat) => (some (GoError.external b), none),
    Background := (0 : Nat),
    PayoutTypeSBP := "sbp",
    payoutDestinationType := fun (n : Nat) => if n = 0 then "sbp" else "bank_card",
    marshalIndentPayout := fun (n : Nat) => .ok [n],
    decodePayout := fun (b : Nat) => .ok b,
    decodeSbpBankList := fun (b : Nat) => .ok b,
    items := fun (l : Nat) => [l],
    marshalRefund := fun (n : Nat) => .ok [n],
    marshalFilter := fun (n : Nat) => .ok [n],
    unmarshalParams := fun l => .ok l.length,
    readAll := fun (b : Nat) => .ok [b],
    unmarshalRefund := fun l => .ok l.length,
    unmarshalRefundList := fun l => .ok l.length }

/-- The error a handler returns for a response with a status other than 200:
the decode error of `GetError` when there is one, else the provider error it
decoded. -/
def statusError (d : Deps T) (body : T.Body) : Option GoError :=
  match d.GetError body with
  | (_, some err) => some err
  | (respError, none) => respError

/-- The two results of decoding a response body. -/
def decoded {α : Type} (r : Except GoError α) : Option α × Option GoError :=
  match r with
  | .error err => (none, some err)
  | .ok x => (some x, none)

/-- The bytes of a body, then the entity in them (`io.ReadAll`, `json.Unmarshal`). -/
def readThen {α : Type} (d : Deps T) (f : List Nat → Except GoError α) (body : T.Body) :
    Except GoError α :=
  match d.readAll body with
  | .error err => .error err
  | .ok bytes => f bytes

/-- What holds of the package state and of the slices callers hold, whatever
the callers did: the registry variables are those of the initialised package,
array 0 (the one behind `trustedCIDRs`) holds the literal list, and no slice
a caller holds is over array 0. -/
def RegistryIntact (w : Pkg × List Slice) : Prop :=
  w.1.trustedCIDRs = ⟨0, 7, 7⟩ ∧ w.1.arrays[0]? = some trustedCIDRsLiteral ∧
  w.1.trustedNetworks = registryNetworks ∧ ∀ s ∈ w.2, s.arr ≠ 0

/-- The dotted-quad literal of the address `a.b.c.d`: four decimal numbers
without leading zeros, separated by dots. -/
def dottedQuad (a b c d : Nat) : String :=
  toString a ++ "." ++ toString b ++ "." ++ toString c ++ "." ++ toString d

/-- The address `a.b.c.d` as a 32-bit number. -/
def ipv4Number (a b c d : Nat) : Nat :=
  a * 2 ^ 24 + b * 2 ^ 16 + c * 2 ^ 8 + d

/-- The address `a.b.c.d` lies in one of the six IPv4 ranges of the registry. -/
def inTrustedIPv4Ranges (a b c d : Nat) : Prop :=
  (ipv4Number 185 71 76 0 ≤ ipv4Number a b c d ∧ ipv4Number a b c d ≤ ipv4Number 185 71 76 31) ∨
  (ipv4Number 185 71 77 0 ≤ ipv4Number a b c d ∧ ipv4Number a b c d ≤ ipv4Number 185 71 77 31) ∨
  (ipv4Number 77 75 153 0 ≤ ipv4Number a b c d ∧ ipv4Number a b c d ≤ ipv4Number 77 75 153 127) ∨
  (ipv4Number 77 75 154 128 ≤ ipv4Number a b c d ∧
    ipv4Number a b c d ≤ ipv4Number 77 75 154 255) ∨
  ipv4Number a b c d = ipv4Number 77 75 156 11 ∨
  ipv4Number a b c d = ipv4Number 77 75 156 35

/-- The digit branch of `parseIPv4Loop` run over a block of bytes: the
`(val, digLen, last byte)` reached, `none` if the loop rejects a byte. -/
def runDigits : List Nat → Nat → Nat → Option Nat → Option (Nat × Nat × Option Nat)
  | [], val, digLen, prev => some (val, digLen, prev)
  | c :: rest, val, digLen, _ =>
      if 48 ≤ c ∧ c ≤ 57 then
        if digLen = 1 ∧ val = 0 then none
        else if val * 10 + c - 48 > 255 then none
        else runDigits rest (val * 10 + c - 48) (digLen + 1) (some c)
      else none

/-- The bytes `net.ParseIP` returns for the IPv4 address `a.b.c.d`. -/
def v4InV6 (a b c d : Nat) : List Nat :=
  [0, 0, 0, 0, 0, 0, 0, 0, 0, 0, 255, 255, a, b, c, d]

/-- The bytes a bare numeric literal is made of: hex digits, `.` and `:`. -/
def isLiteralByte (b : Nat) : Prop :=
  (48 ≤ b ∧ b ≤ 57) ∨ (97 ≤ b ∧ b ≤ 102) ∨ (65 ≤ b ∧ b ≤ 70) ∨ b = 46 ∨ b = 58

instance (b : Nat) : Decidable (isLiteralByte b) := by
  unfold isLiteralByte
  infer_instance

/-- Sixteen bytes, each below 256. -/
def IsBytes16 (ip : List Nat) : Prop :=
  ip.length = 16 ∧ ∀ x ∈ ip, x < 256


/-- The decimal digits of a number below 256, without leading zeros, as bytes. -/
def canonicalDigits (n : Nat) : List Nat :=
  if n < 10 then [48 + n]
  else if n < 100 then [48 + n / 10, 48 + n % 10]
  else [48 + n / 100, 48 + n / 10 % 10, 48 + n % 10]


/-- A hex digit: `0`-`9`, `a`-`f`, `A`-`F`. -/
def isHexByte (b : Nat) : Prop :=
  (48 ≤ b ∧ b ≤ 57) ∨ (97 ≤ b ∧ b ≤ 102) ∨ (65 ≤ b ∧ b ≤ 70)

/-- A group of an IPv6 literal: one to four hex digits. -/
def IsHexGroup (g : List Nat) : Prop :=
  1 ≤ g.length ∧ g.length ≤ 4 ∧ ∀ b ∈ g, isHexByte b

/-- A bare IPv4 dotted-quad literal: four decimal numbers below 256, written
without leading zeros, separated by dots, and nothing else. -/
def IsIPv4Literal (s : List Nat) : Prop :=
  ∃ a b c d, a < 256 ∧ b < 256 ∧ c < 256 ∧ d < 256 ∧ s = str (dottedQuad a b c d)

/-- Fields written one after the other with a colon between them. -/
def colonJoin : List (List Nat) → List Nat
  | [] => []
  | [g] => g
  | g :: h :: rest => g ++ 58 :: colonJoin (h :: rest)

/-- The fields of (a part of) an IPv6 literal: hex groups `gs`, then at most
one dotted quad `q`. -/
def IsFieldList (gs : List (List Nat)) (q : Option (List Nat)) : Prop :=
  (∀ g ∈ gs, IsHexGroup g) ∧ ∀ x ∈ q, IsIPv4Literal x

/-- The number of 16-bit pieces the fields fill: one per hex group, two for
the dotted quad. -/
def fieldWidth (gs : List (List Nat)) (q : Option (List Nat)) : Nat :=
  gs.length + 2 * q.toList.length

/-- A bare IPv6 colon-hex literal (no zone, no brackets): either fields that
fill all eight 16-bit pieces, or two runs of fields around one `::`, filling
at most seven pieces; a dotted quad may stand for the last two pieces. -/
def IsIPv6Literal (s : List Nat) : Prop :=
  (∃ gs q, IsFieldList gs q ∧ s = colonJoin (gs ++ q.toList) ∧ fieldWidth gs q = 8) ∨
  (∃ L R q, IsFieldList L none ∧ IsFieldList R q ∧
    s = colonJoin L ++ [58, 58] ++ colonJoin (R ++ q.toList) ∧
    L.length + fieldWidth R q ≤ 7)

/-! ## The registry after initialisation -/

theorem init_varInit : init varInit = Except.ok loaded := rfl

theorem loaded_trustedNetworks : loaded.trustedNetworks = registryNetworks := by decide

theorem loaded_trustedCIDRs : loaded.trustedCIDRs = ⟨0, 7, 7⟩ := by decide

theorem loaded_arrays : loaded.arrays = [trustedCIDRsLiteral] := by decide

/-- C10: `init()` does not panic on the hardcoded list: it ends with a registry
of 7 networks, the k-th being the network `net.ParseCIDR` gives for the k-th
literal; each network has an address and a mask of the same family (both 4
bytes or both 16 bytes), and its base address is the address written in the
literal. -/
theorem init_builds_registry :
    ∃ g, init varInit = Except.ok g ∧
      trustedCIDRsLiteral.length = 7 ∧ g.trustedNetworks.length = 7 ∧
      literalParts.map (fun p => p.1 ++ "/" ++ p.2) = sliceElems varInit varInit.trustedCIDRs ∧
      ∀ k, k < 7 →
        (ParseCIDR (str (trustedCIDRsLiteral.getD k ""))).map Prod.snd
            = g.trustedNetworks[k]? ∧
        ((g.trustedNetworks.getD k ⟨[], []⟩).IP.length = 4 ∧
            (g.trustedNetworks.getD k ⟨[], []⟩).Mask.length = 4 ∨
          (g.trustedNetworks.getD k ⟨[], []⟩).IP.length = 16 ∧
            (g.trustedNetworks.getD k ⟨[], []⟩).Mask.length = 16 ∧
            To4 (g.trustedNetworks.getD k ⟨[], []⟩).IP = none) ∧
        (ParseIP (str (literalParts.getD k ("", "")).1)).map canonicalIP
            = some (g.trustedNetworks.getD k ⟨[], []⟩).IP := by
  refine ⟨loaded, rfl, ?_⟩
  decide

/-- C1: for each of the seven registered blocks, the base address and the
highest address are trusted, the address one below the base and the address
one above the top are not. -/
theorem block_boundaries :
    -- 185.71.76.0/27
    IsNotificationIPTrusted loaded "185.71.76.0" = true ∧
    IsNotificationIPTrusted loaded "185.71.76.31" = true ∧
    IsNotificationIPTrusted loaded "185.71.75.255" = false ∧
    IsNotificationIPTrusted loaded "185.71.76.32" = false ∧
    -- 185.71.77.0/27
    IsNotificationIPTrusted loaded "185.71.77.0" = true ∧
    IsNotificationIPTrusted loaded "185.71.77.31" = true ∧
    IsNotificationIPTrusted loaded "185.71.76.255" = false ∧
    IsNotificationIPTrusted loaded "185.71.77.32" = false ∧
    -- 77.75.153.0/25
    IsNotificationIPTrusted loaded "77.75.153.0" = true ∧
    IsNotificationIPTrusted loaded "77.75.153.127" = true ∧
    IsNotificationIPTrusted loaded "77.75.152.255" = false ∧
    IsNotificationIPTrusted loaded "77.75.153.128" = false ∧
    -- 77.75.154.128/25
    IsNotificationIPTrusted loaded "77.75.154.128" = true ∧
    IsNotificationIPTrusted loaded "77.75.154.255" = true ∧
    IsNotificationIPTrusted loaded "77.75.154.127" = false ∧
    IsNotificationIPTrusted loaded "77.75.155.0" = false ∧
    -- 77.75.156.11/32
    IsNotificationIPTrusted loaded "77.75.156.11" = true ∧
    IsNotificationIPTrusted loaded "77.75.156.10" = false ∧
    IsNotificationIPTrusted loaded "77.75.156.12" = false ∧
    -- 77.75.156.35/32
    IsNotificationIPTrusted loaded "77.75.156.35" = true ∧
    IsNotificationIPTrusted loaded "77.75.156.34" = false ∧
    IsNotificationIPTrusted loaded "77.75.156.36" = false ∧
    -- 2a02:5180::/32
    IsNotificationIPTrusted loaded "2a02:5180::" = true ∧
    IsNotificationIPTrusted loaded "2a02:5180:ffff:ffff:ffff:ffff:ffff:ffff" = true ∧
    IsNotificationIPTrusted loaded "2a02:517f:ffff:ffff:ffff:ffff:ffff:ffff" = false ∧
    IsNotificationIPTrusted loaded "2a02:5181::" = false := by
  decide

/-- C5: `GetTrustedIPRanges` returns a slice of length 7 whose elements are
the seven literals of the canonical list, in the order of that list. -/
theorem getTrustedIPRanges_canonical :
    (GetTrustedIPRanges loaded).1.len = 7 ∧
    sliceElems (GetTrustedIPRanges loaded).2 (GetTrustedIPRanges loaded).1
      = [ "185.71.76.0/27", "185.71.77.0/27", "77.75.153.0/25", "77.75.154.128/25",
          "77.75.156.11/32", "77.75.156.35/32", "2a02:5180::/32" ] ∧
    sliceElems (GetTrustedIPRanges loaded).2 (GetTrustedIPRanges loaded).1
      = sliceElems loaded loaded.trustedCIDRs := by
  decide

/-- C3, as stated, fails: `::ffff:b947:4c05` is an IPv6 colon-hex literal
(`netip.ParseAddr` reads it with `parseIPv6`, the result is not an IPv4
`Addr`), its first 32 bits are zero, not `2a02:5180`, and it is trusted: the
IPv4 block 185.71.76.0/27 matches it. -/
theorem ipv4_mapped_ipv6_trusted :
    (ParseAddr (str "::ffff:b947:4c05")).map (fun a => (a.is4, a.zone, a.bytes.take 4))
      = some (false, [], [0, 0, 0, 0]) ∧
    IsNotificationIPTrusted loaded "::ffff:b947:4c05" = true ∧
    IPNet.Contains ⟨[185, 71, 76, 0], [255, 255, 255, 224]⟩
      ((ParseIP (str "::ffff:b947:4c05")).getD []) = true ∧
    IPNet.Contains ⟨[42, 2, 81, 128, 0, 0, 0, 0, 0, 0, 0, 0, 0, 0, 0, 0],
        [255, 255, 255, 255, 0, 0, 0, 0, 0, 0, 0, 0, 0, 0, 0, 0]⟩
      ((ParseIP (str "::ffff:b947:4c05")).getD []) = false := by
  decide

/-! ## Handlers -/

/-- C7: a payout whose destination type is not the SBP type makes
`CreatePayoutCtx`, and the deprecated `CreatePayout`, return a nil payout and
the local error "unsupported payout type", with no request handed to the HTTP
client. -/
theorem createPayout_unsupported_type (d : Deps T) (p : PayoutHandler T) (ctx : T.Ctx)
    (payout : T.Payout) (h : d.payoutDestinationType payout ≠ d.PayoutTypeSBP) :
    (p.CreatePayoutCtx d ctx payout).value = none ∧
    (p.CreatePayoutCtx d ctx payout).err = some (GoError.errorsNew "unsupported payout type") ∧
    (p.CreatePayoutCtx d ctx payout).sent = [] ∧
    (p.CreatePayout d payout).value = none ∧
    (p.CreatePayout d payout).err = some (GoError.errorsNew "unsupported payout type") ∧
    (p.CreatePayout d payout).sent = [] := by
  simp [PayoutHandler.CreatePayout, PayoutHandler.CreatePayoutCtx, h]

theorem createPayout_unsupported_type_witness :
    (natDeps 200).payoutDestinationType (1 : Nat) ≠ (natDeps 200).PayoutTypeSBP ∧
    (PayoutHandler.CreatePayoutCtx (natDeps 200) ⟨(7 : Nat), "key"⟩ (0 : Nat) (1 : Nat)).sent = [] :=
  ⟨by decide,
   (createPayout_unsupported_type (natDeps 200) ⟨(7 : Nat), "key"⟩ (0 : Nat) (1 : Nat)
      (by decide)).2.2.1⟩

/-- C9: `WithIdempotencyKey` is copy-on-configure.  On a `PayoutHandler` held
at address `a` it returns the address of another handler object, which has
the new key and the client of the receiver, and every handler object that
existed before the call, the receiver among them, is what it was.  On a
`RefundHandler` it returns a handler value with the new key and the client of
the receiver and writes no handler object. -/
theorem withIdempotencyKey_copies (k : String) :
    (∀ (mem : List (PayoutHandler T)) (a : Nat) (h : PayoutHandler T),
      mem[a]? = some h →
        (PayoutHandler.WithIdempotencyKey mem h k).1 ≠ a ∧
        (PayoutHandler.WithIdempotencyKey mem h k).2[(PayoutHandler.WithIdempotencyKey mem h k).1]?
          = some { client := h.client, idempotencyKey := k } ∧
        (PayoutHandler.WithIdempotencyKey mem h k).2[a]? = some h ∧
        ∀ b, b < mem.length →
          (PayoutHandler.WithIdempotencyKey mem h k).2[b]? = mem[b]?) ∧
    (∀ (mem : List (RefundHandler T)) (a : Nat) (h : RefundHandler T),
      mem[a]? = some h →
        (RefundHandler.WithIdempotencyKey mem h k).1
          = { client := h.client, idempotencyKey := k } ∧
        (RefundHandler.WithIdempotencyKey mem h k).2 = mem ∧
        (RefundHandler.WithIdempotencyKey mem h k).2[a]? = some h) := by
  constructor
  · intro mem a h ha
    have hlt : a < mem.length := by
      rcases Nat.lt_or_ge a mem.length with h1 | h1
      · exact h1
      · rw [List.getElem?_eq_none h1] at ha
        cases ha
    refine ⟨?_, ?_, ?_, ?_⟩
    · simp only [PayoutHandler.WithIdempotencyKey]
      omega
    · simp [PayoutHandler.WithIdempotencyKey]
    · simp only [PayoutHandler.WithIdempotencyKey]
      rw [List.getElem?_append_left hlt]
      exact ha
    · intro b hb
      simp only [PayoutHandler.WithIdempotencyKey]
      rw [List.getElem?_append_left hb]
  · intro mem a h ha
    simp [RefundHandler.WithIdempotencyKey, ha]

theorem withIdempotencyKey_copies_witness :
    ([(⟨(3 : Nat), "old"⟩ : PayoutHandler natTypes)][0]? = some ⟨(3 : Nat), "old"⟩) ∧
    (PayoutHandler.WithIdempotencyKey [(⟨(3 : Nat), "old"⟩ : PayoutHandler natTypes)]
        ⟨(3 : Nat), "old"⟩ "new").2[0]? = some ⟨(3 : Nat), "old"⟩ :=
  ⟨rfl, ((withIdempotencyKey_copies "new").1 [(⟨(3 : Nat), "old"⟩ : PayoutHandler natTypes)] 0
      ⟨(3 : Nat), "old"⟩ rfl).2.2.1⟩

/-- C8, amended: whenever the HTTP client answers the request of an operation with a
response (no transport error), the operation sends that one request and
* for a status other than 200 (`http.StatusOK`) returns no entity and the
  error `statusError` (the decode error of `GetError`, else the provider error
  it decoded), which is an error as soon as `GetError` returns one;
* for status 200 returns what decoding the body gives: the entity and no
  error, or no entity and the decode error.
This holds for `GetSbpBanksCtx`, `CreatePayoutCtx`, `GetPayoutCtx`,
`CreateRefundCtx`, `FindRefundCtx` and `FindRefundsCtx`. -/
theorem handlers_status_contract (d : Deps T) (resp : Response T) :
    (((d.GetError resp.Body).1 ≠ none ∨ (d.GetError resp.Body).2 ≠ none) →
        statusError d resp.Body ≠ none) ∧
    (∀ (p : PayoutHandler T) (ctx : T.Ctx),
      d.makeRequest ⟨p.client, ctx, "GET", "sbp_banks", none, none, p.idempotencyKey⟩ = Except.ok resp →
      (p.GetSbpBanksCtx d ctx).sent = [⟨p.client, ctx, "GET", "sbp_banks", none, none, p.idempotencyKey⟩] ∧
      (resp.StatusCode ≠ 200 →
        (p.GetSbpBanksCtx d ctx).value = none ∧
        (p.GetSbpBanksCtx d ctx).err = statusError d resp.Body) ∧
      (resp.StatusCode = 200 →
        ((p.GetSbpBanksCtx d ctx).value, (p.GetSbpBanksCtx d ctx).err)
          = decoded ((d.decodeSbpBankList resp.Body).map d.items))) ∧
    (∀ (p : PayoutHandler T) (ctx : T.Ctx) (payout : T.Payout) (payoutJson : List Nat),
      d.payoutDestinationType payout = d.PayoutTypeSBP →
      d.marshalIndentPayout payout = Except.ok payoutJson →
      d.makeRequest ⟨p.client, ctx, "POST", "payouts", some payoutJson, none, p.idempotencyKey⟩ = Except.ok resp →
      (p.CreatePayoutCtx d ctx payout).sent = [⟨p.client, ctx, "POST", "payouts", some payoutJson, none, p.idempotencyKey⟩] ∧
      (resp.StatusCode ≠ 200 →
        (p.CreatePayoutCtx d ctx payout).value = none ∧
        (p.CreatePayoutCtx d ctx payout).err = statusError d resp.Body) ∧
      (resp.StatusCode = 200 →
        ((p.CreatePayoutCtx d ctx payout).value, (p.CreatePayoutCtx d ctx payout).err)
          = decoded (d.decodePayout resp.Body))) ∧
    (∀ (p : PayoutHandler T) (ctx : T.Ctx) (payoutId : String),
      d.makeRequest ⟨p.client, ctx, "GET", "payouts/" ++ payoutId, none, none, p.idempotencyKey⟩ = Except.ok resp →
      (p.GetPayoutCtx d ctx payoutId).sent = [⟨p.client, ctx, "GET", "payouts/" ++ payoutId, none, none, p.idempotencyKey⟩] ∧
      (resp.StatusCode ≠ 200 →
        (p.GetPayoutCtx d ctx payoutId).value = none ∧
        (p.GetPayoutCtx d ctx payoutId).err = statusError d resp.Body) ∧
      (resp.StatusCode = 200 →
        ((p.GetPayoutCtx d ctx payoutId).value, (p.GetPayoutCtx d ctx payoutId).err)
          = decoded (d.decodePayout resp.Body))) ∧
    (∀ (r : RefundHandler T) (ctx : T.Ctx) (refund : T.Refund) (refundJson : List Nat),
      d.marshalRefund refund = Except.ok refundJson →
      d.makeRequest ⟨r.client, ctx, "POST", "refunds", some refundJson, none, r.idempotencyKey⟩ = Except.ok resp →
      (r.CreateRefundCtx d ctx refund).sent = [⟨r.client, ctx, "POST", "refunds", some refundJson, none, r.idempotencyKey⟩] ∧
      (resp.StatusCode ≠ 200 →
        (r.CreateRefundCtx d ctx refund).value = none ∧
        (r.CreateRefundCtx d ctx refund).err = statusError d resp.Body) ∧
      (resp.StatusCode = 200 →
        ((r.CreateRefundCtx d ctx refund).value, (r.CreateRefundCtx d ctx refund).err)
          = decoded (readThen d d.unmarshalRefund resp.Body))) ∧
    (∀ (r : RefundHandler T) (ctx : T.Ctx) (id : String),
      d.makeRequest ⟨r.client, ctx, "GET", "refunds/" ++ id, none, none, r.idempotencyKey⟩ = Except.ok resp →
      (r.FindRefundCtx d ctx id).sent = [⟨r.client, ctx, "GET", "refunds/" ++ id, none, none, r.idempotencyKey⟩] ∧
      (resp.StatusCode ≠ 200 →
        (r.FindRefundCtx d ctx id).value = none ∧
        (r.FindRefundCtx d ctx id).err = statusError d resp.Body) ∧
      (resp.StatusCode = 200 →
        ((r.FindRefundCtx d ctx id).value, (r.FindRefundCtx d ctx id).err)
          = decoded (readThen d d.unmarshalRefund resp.Body))) ∧
    (∀ (r : RefundHandler T) (ctx : T.Ctx) (filter : T.RefundListFilter)
        (filterJson : List Nat) (filterMap : T.Params),
      d.marshalFilter filter = Except.ok filterJson →
      d.unmarshalParams filterJson = Except.ok filterMap →
      d.makeRequest ⟨r.client, ctx, "GET", "refunds", none, some filterMap, r.idempotencyKey⟩ = Except.ok resp →
      (r.FindRefundsCtx d ctx filter).sent = [⟨r.client, ctx, "GET", "refunds", none, some filterMap, r.idempotencyKey⟩] ∧
      (resp.StatusCode ≠ 200 →
        (r.FindRefundsCtx d ctx filter).value = none ∧
        (r.FindRefundsCtx d ctx filter).err = statusError d resp.Body) ∧
      (resp.StatusCode = 200 →
        ((r.FindRefundsCtx d ctx filter).value, (r.FindRefundsCtx d ctx filter).err)
          = decoded (readThen d d.unmarshalRefundList resp.Body))) := by
  refine ⟨?_, ?_, ?_, ?_, ?_, ?_, ?_⟩
  · intro h
    unfold statusError
    rcases hg : d.GetError resp.Body with ⟨re, e⟩
    rw [hg] at h
    cases e <;> simp_all
  · intro p ctx hclient
    by_cases hs : resp.StatusCode = 200
    · cases hd : d.decodeSbpBankList resp.Body <;>
        simp [SbpBanksEndpoint, PayoutsEndpoint, RefundEndpoint, PayoutHandler.GetSbpBanksCtx, hclient, hs, hd, decoded, Except.map]
    · rcases hg : d.GetError resp.Body with ⟨re, e⟩
      cases e <;> simp [SbpBanksEndpoint, PayoutsEndpoint, RefundEndpoint, PayoutHandler.GetSbpBanksCtx, hclient, hs, hg, statusError]
  · intro p ctx payout payoutJson ht hm hclient
    by_cases hs : resp.StatusCode = 200
    · cases hd : d.decodePayout resp.Body <;>
        simp [SbpBanksEndpoint, PayoutsEndpoint, RefundEndpoint, PayoutHandler.CreatePayoutCtx, hclient, hs, hd, decoded, ht, hm]
    · rcases hg : d.GetError resp.Body with ⟨re, e⟩
      cases e <;> simp [SbpBanksEndpoint, PayoutsEndpoint, RefundEndpoint, PayoutHandler.CreatePayoutCtx, hclient, hs, hg, statusError, ht, hm]
  · intro p ctx payoutId hclient
    by_cases hs : resp.StatusCode = 200
    · cases hd : d.decodePayout resp.Body <;>
        simp [SbpBanksEndpoint, PayoutsEndpoint, RefundEndpoint, PayoutHandler.GetPayoutCtx, hclient, hs, hd, decoded]
    · rcases hg : d.GetError resp.Body with ⟨re, e⟩
      cases e <;> simp [SbpBanksEndpoint, PayoutsEndpoint, RefundEndpoint, PayoutHandler.GetPayoutCtx, hclient, hs, hg, statusError]
  · intro r ctx refund refundJson hm hclient
    by_cases hs : resp.StatusCode = 200
    · cases hr : d.readAll resp.Body with
      | error e =>
        simp [SbpBanksEndpoint, PayoutsEndpoint, RefundEndpoint, RefundHandler.CreateRefundCtx, RefundHandler.parseRefundResponse, hclient, hs, hr,
          decoded, readThen, hm]
      | ok bytes =>
        cases hd : d.unmarshalRefund bytes <;>
          simp [SbpBanksEndpoint, PayoutsEndpoint, RefundEndpoint, RefundHandler.CreateRefundCtx, RefundHandler.parseRefundResponse, hclient, hs,
            hr, hd, decoded, readThen, hm]
    · rcases hg : d.GetError resp.Body with ⟨re, e⟩
      cases e <;> simp [SbpBanksEndpoint, PayoutsEndpoint, RefundEndpoint, RefundHandler.CreateRefundCtx, hclient, hs, hg, statusError, hm]
  · intro r ctx id hclient
    by_cases hs : resp.StatusCode = 200
    · cases hr : d.readAll resp.Body with
      | error e =>
        simp [SbpBanksEndpoint, PayoutsEndpoint, RefundEndpoint, RefundHandler.FindRefundCtx, RefundHandler.parseRefundResponse, hclient, hs, hr,
          decoded, readThen]
      | ok bytes =>
        cases hd : d.unmarshalRefund bytes <;>
          simp [SbpBanksEndpoint, PayoutsEndpoint, RefundEndpoint, RefundHandler.FindRefundCtx, RefundHandler.parseRefundResponse, hclient, hs,
            hr, hd, decoded, readThen]
    · rcases hg : d.GetError resp.Body with ⟨re, e⟩
      cases e <;> simp [SbpBanksEndpoint, PayoutsEndpoint, RefundEndpoint, RefundHandler.FindRefundCtx, hclient, hs, hg, statusError]
  · intro r ctx filter filterJson filterMap hm hu hclient
    by_cases hs : resp.StatusCode = 200
    · cases hr : d.readAll resp.Body with
      | error e =>
        simp [SbpBanksEndpoint, PayoutsEndpoint, RefundEndpoint, RefundHandler.FindRefundsCtx, hclient, hs, hr, decoded, readThen, hm, hu]
      | ok bytes =>
        cases hd : d.unmarshalRefundList bytes <;>
          simp [SbpBanksEndpoint, PayoutsEndpoint, RefundEndpoint, RefundHandler.FindRefundsCtx, hclient, hs, hr, hd, decoded, readThen, hm, hu]
    · rcases hg : d.GetError resp.Body with ⟨re, e⟩
      cases e <;> simp [SbpBanksEndpoint, PayoutsEndpoint, RefundEndpoint, RefundHandler.FindRefundsCtx, hclient, hs, hg, statusError, hm, hu]

theorem handlers_status_contract_witness :
    ((natDeps 500).makeRequest ⟨(7 : Nat), (0 : Nat), "GET", "payouts/" ++ "id", none, none, ""⟩
        = Except.ok ⟨500, (5 : Nat)⟩) ∧
    ((PayoutHandler.GetPayoutCtx (natDeps 500) ⟨(7 : Nat), ""⟩ (0 : Nat) "id").value = none ∧
     (PayoutHandler.GetPayoutCtx (natDeps 500) ⟨(7 : Nat), ""⟩ (0 : Nat) "id").err
        = some (GoError.external 5)) :=
  ⟨rfl,
   ((handlers_status_contract (natDeps 500) ⟨500, (5 : Nat)⟩).2.2.2.1
      ⟨(7 : Nat), ""⟩ (0 : Nat) "id" rfl).2.1 (by decide)⟩

/-! ## The registry is not reachable through a returned slice -/

theorem getD_arrays (arrays : List (List String)) (i : Nat) :
    arrays.getD i [] = (arrays[i]?).getD [] := by
  simp [List.getD_eq_getElem?_getD]

theorem getTrustedIPRanges_of_intact (g : Pkg) (hc : g.trustedCIDRs = ⟨0, 7, 7⟩)
    (h0 : g.arrays[0]? = some trustedCIDRsLiteral) :
    (GetTrustedIPRanges g).1 = ⟨g.arrays.length, 7, 7⟩ ∧
    (GetTrustedIPRanges g).2.arrays = g.arrays ++ [trustedCIDRsLiteral] ∧
    (GetTrustedIPRanges g).2.trustedCIDRs = g.trustedCIDRs ∧
    (GetTrustedIPRanges g).2.trustedNetworks = g.trustedNetworks := by
  have hpos : 0 < g.arrays.length := by
    rcases Nat.eq_zero_or_pos g.arrays.length with h | h
    · rw [List.getElem?_eq_none (by omega)] at h0
      cases h0
    · exact h
  have hsrc : (g.arrays ++ [List.replicate 7 ""])[0]? = some trustedCIDRsLiteral := by
    rw [List.getElem?_append_left hpos]
    exact h0
  refine ⟨?_, ?_, ?_, ?_⟩
  · simp [GetTrustedIPRanges, make, copy, hc]
  · simp only [GetTrustedIPRanges, make, copy, hc, sliceElems, getD_arrays, hsrc]
    simp [trustedCIDRsLiteral]
  · simp [GetTrustedIPRanges, make, copy]
  · simp [GetTrustedIPRanges, make, copy]

theorem callerStep_intact (w : Pkg × List Slice) (st : CallerStep) (h : RegistryIntact w) :
    RegistryIntact (callerStep w st) := by
  obtain ⟨hc, h0, hn, hs⟩ := h
  have hpos : 0 < w.1.arrays.length := by
    rcases Nat.eq_zero_or_pos w.1.arrays.length with h | h
    · rw [List.getElem?_eq_none (by omega)] at h0
      cases h0
    · exact h
  cases st with
  | call =>
    obtain ⟨h1, h2, h3, h4⟩ := getTrustedIPRanges_of_intact w.1 hc h0
    refine ⟨?_, ?_, ?_, ?_⟩
    · simp only [callerStep]
      rw [h3]
      exact hc
    · simp only [callerStep]
      rw [h2, List.getElem?_append_left hpos]
      exact h0
    · simp only [callerStep]
      rw [h4]
      exact hn
    · intro s hmem
      simp only [callerStep, List.mem_append, List.mem_singleton] at hmem
      rcases hmem with hmem | hmem
      · exact hs s hmem
      · rw [hmem, h1]
        simp only
        omega
  | assign k i v =>
    simp only [callerStep]
    cases hk : w.2.get? k with
    | none => exact ⟨hc, h0, hn, hs⟩
    | some s =>
      have hsne : s.arr ≠ 0 := hs s (List.get?_mem hk)
      simp only [assignIndex]
      by_cases hi : i < s.cap
      · simp only [hi, if_true]
        refine ⟨hc, ?_, hn, hs⟩
        simp only
        rw [List.getElem?_set_ne hsne]
        exact h0
      · simp only [hi, if_false]
        exact ⟨hc, h0, hn, hs⟩

theorem callerRun_intact (steps : List CallerStep) (w : Pkg × List Slice)
    (h : RegistryIntact w) : RegistryIntact (callerRun w steps) := by
  induction steps generalizing w with
  | nil => exact h
  | cons st rest ih =>
    simp only [callerRun, List.foldl_cons]
    exact ih _ (callerStep_intact w st h)

theorem loaded_intact : RegistryIntact (loaded, []) := by
  refine ⟨loaded_trustedCIDRs, ?_, loaded_trustedNetworks, ?_⟩
  · simp [loaded_arrays]
  · intro s hs
    cases hs

/-- C6: a slice returned by `GetTrustedIPRanges` is never over the array of
the registry.  Whatever callers do from the initialised package onwards
(calls of `GetTrustedIPRanges`, assignments to elements of slices those calls
returned), a further call of `GetTrustedIPRanges` returns the seven literals,
as the first call did, and `IsNotificationIPTrusted` answers every query as
it did at the start.  In particular, after `r := GetTrustedIPRanges()` and
`r[0] = "0.0.0.0/0"` the caller's slice starts with "0.0.0.0/0" and the next
call still returns the canonical list. -/
theorem returned_slice_never_aliases :
    (∀ steps : List CallerStep,
      sliceElems (GetTrustedIPRanges (callerRun (loaded, []) steps).1).2
          (GetTrustedIPRanges (callerRun (loaded, []) steps).1).1
        = sliceElems (GetTrustedIPRanges loaded).2 (GetTrustedIPRanges loaded).1 ∧
      sliceElems (GetTrustedIPRanges (callerRun (loaded, []) steps).1).2
          (GetTrustedIPRanges (callerRun (loaded, []) steps).1).1 = trustedCIDRsLiteral ∧
      (∀ ip, IsNotificationIPTrusted (callerRun (loaded, []) steps).1 ip
        = IsNotificationIPTrusted loaded ip) ∧
      ∀ s ∈ (callerRun (loaded, []) steps).2,
        s.arr ≠ (callerRun (loaded, []) steps).1.trustedCIDRs.arr) ∧
    ((callerRun (loaded, []) [.call, .assign 0 0 "0.0.0.0/0"]).2.map
        (sliceElems (callerRun (loaded, []) [.call, .assign 0 0 "0.0.0.0/0"]).1)
      = [ [ "0.0.0.0/0", "185.71.77.0/27", "77.75.153.0/25", "77.75.154.128/25",
            "77.75.156.11/32", "77.75.156.35/32", "2a02:5180::/32" ] ]) := by
  constructor
  · intro steps
    obtain ⟨hc, h0, hn, hs⟩ := callerRun_intact steps (loaded, []) loaded_intact
    obtain ⟨h1, h2, _, _⟩ := getTrustedIPRanges_of_intact _ hc h0
    have hres : sliceElems (GetTrustedIPRanges (callerRun (loaded, []) steps).1).2
        (GetTrustedIPRanges (callerRun (loaded, []) steps).1).1 = trustedCIDRsLiteral := by
      simp only [sliceElems, h1, h2, getD_arrays]
      simp [trustedCIDRsLiteral]
    refine ⟨?_, hres, ?_, ?_⟩
    · rw [hres]
      decide
    · intro ip
      simp only [IsNotificationIPTrusted, hn, loaded_trustedNetworks]
    · intro s hmem
      rw [hc]
      exact hs s hmem
  · decide

/-- Eight rounds are enough for the loop of `netip.parseIPv6`: once
`16 ≤ i + 2 * fuel`, more fuel does not change the result, so the `none` of
the model for "out of fuel" is never what `parseIPv6` sees. -/
theorem parseIPv6Loop_fuel (fuel : Nat) :
    ∀ (k : Nat) (s : List Nat) (i : Nat) (ip : List Nat) (e : Option Nat),
      16 ≤ i + 2 * fuel →
      parseIPv6Loop (fuel + k) s i ip e = parseIPv6Loop fuel s i ip e := by
  induction fuel with
  | zero =>
    intro k s i ip e h
    have hi : ¬ i < 16 := by omega
    cases k with
    | zero => rfl
    | succ k => simp [parseIPv6Loop, hi]
  | succ fuel ih =>
    intro k s i ip e h
    have e1 : fuel + 1 + k = (fuel + k) + 1 := by omega
    rw [e1]
    by_cases hi : i < 16
    · have ih2 := fun s ip e => ih k s (i + 2) ip e (by omega)
      simp only [parseIPv6Loop, ih2]
    · simp [parseIPv6Loop, hi]

/-! ## IPv4 dotted-quad literals -/

theorem str_append (s t : String) : str (s ++ t) = str s ++ str t := by
  simp [str, String.toUTF8, List.flatMap_append]

theorem parseIPv4Loop_runDigits (ds rest : List Nat) (prev : Option Nat) (val pos digLen : Nat)
    (fields : List Nat) (r : Nat × Nat × Option Nat)
    (h : runDigits ds val digLen prev = some r) :
    parseIPv4Loop (ds ++ rest) prev val pos digLen fields
      = parseIPv4Loop rest r.2.2 r.1 pos r.2.1 fields := by
  induction ds generalizing prev val digLen with
  | nil =>
    simp only [runDigits, Option.some.injEq] at h
    subst h
    rfl
  | cons c ds ih =>
    simp only [runDigits] at h
    by_cases hc : 48 ≤ c ∧ c ≤ 57
    · by_cases hz : digLen = 1 ∧ val = 0
      · simp [hc, hz] at h
      · by_cases hv : val * 10 + c - 48 > 255
        · simp [hc, hz, hv] at h
        · simp only [hc, hz, hv, if_true, if_false, and_self] at h
          simp only [List.cons_append, parseIPv4Loop, hc, hz, hv, if_true, if_false, and_self]
          exact ih _ _ _ h
    · simp [hc] at h

set_option maxRecDepth 1000000 in
/-- The decimal text of a number below 256 is read by the digit branch as
that number; it is not empty and ends in a digit. -/
theorem runDigits_octet : ∀ n, n < 256 →
    str (toString n) ≠ [] ∧ (str (toString n)).all (fun c => decide (48 ≤ c ∧ c ≤ 57)) = true ∧
    (runDigits (str (toString n)) 0 0 none).map
        (fun r => (r.1, r.2.2.isSome && (r.2.2 != some 46)))
      = some (n, true) := by
  decide

theorem octet_step (n : Nat) (hn : n < 256) (rest : List Nat) (prev : Option Nat)
    (pos : Nat) (fields : List Nat) :
    ∃ dl p, p ≠ 46 ∧
      parseIPv4Loop (str (toString n) ++ rest) prev 0 pos 0 fields
        = parseIPv4Loop rest (some p) n pos dl fields := by
  obtain ⟨hne, _, hrun⟩ := runDigits_octet n hn
  cases hds : str (toString n) with
  | nil => exact absurd hds hne
  | cons c ds =>
    rw [hds] at hrun
    have hprev : runDigits (c :: ds) 0 0 prev = runDigits (c :: ds) 0 0 none := by
      simp [runDigits]
    cases hr : runDigits (c :: ds) 0 0 none with
    | none => simp [hr] at hrun
    | some r =>
      obtain ⟨v, dl, last⟩ := r
      rw [hr] at hrun
      simp only [Option.map_some', Option.some.injEq, Prod.mk.injEq, Bool.and_eq_true,
        bne_iff_ne, ne_eq] at hrun
      obtain ⟨hv, hsome, hdot⟩ := hrun
      cases last with
      | none => simp at hsome
      | some p =>
        refine ⟨dl, p, ?_, ?_⟩
        · intro hp
          exact hdot (by rw [hp])
        · rw [parseIPv4Loop_runDigits (c :: ds) rest prev 0 pos 0 fields (v, dl, some p)
            (by rw [hprev, hr])]
          simp only [hv]

theorem dot_step (p n pos dl : Nat) (rest fields : List Nat) (hp : p ≠ 46) (hrest : rest ≠ [])
    (hpos : pos ≠ 3) :
    parseIPv4Loop (46 :: rest) (some p) n pos dl fields
      = parseIPv4Loop rest (some 46) 0 (pos + 1) 0 (fields.set pos (n % 256)) := by
  simp [parseIPv4Loop, hp, hrest, hpos]

theorem str_dot : str "." = [46] := by decide

theorem str_dottedQuad (a b c d : Nat) :
    str (dottedQuad a b c d)
      = str (toString a) ++ 46 :: (str (toString b) ++ 46 :: (str (toString c) ++
          46 :: (str (toString d) ++ []))) := by
  simp [dottedQuad, str_append, str_dot]

theorem parseIPv4Fields_dottedQuad (a b c d : Nat) (ha : a < 256) (hb : b < 256)
    (hc : c < 256) (hd : d < 256) :
    parseIPv4Fields (str (dottedQuad a b c d)) = some [a, b, c, d] := by
  have hdne : str (toString d) ++ [] ≠ [] := by
    simpa using (runDigits_octet d hd).1
  rw [str_dottedQuad, parseIPv4Fields]
  obtain ⟨dl1, p1, hp1, e1⟩ := octet_step a ha
    (46 :: (str (toString b) ++ 46 :: (str (toString c) ++ 46 :: (str (toString d) ++ []))))
    none 0 [0, 0, 0, 0]
  rw [e1, dot_step p1 a 0 dl1 _ _ hp1 (by simp) (by decide)]
  obtain ⟨dl2, p2, hp2, e2⟩ := octet_step b hb
    (46 :: (str (toString c) ++ 46 :: (str (toString d) ++ [])))
    (some 46) (0 + 1) ([0, 0, 0, 0].set 0 (a % 256))
  rw [e2, dot_step p2 b (0 + 1) dl2 _ _ hp2 (by simp) (by decide)]
  obtain ⟨dl3, p3, hp3, e3⟩ := octet_step c hc
    (46 :: (str (toString d) ++ []))
    (some 46) (0 + 1 + 1) (([0, 0, 0, 0].set 0 (a % 256)).set (0 + 1) (b % 256))
  rw [e3, dot_step p3 c (0 + 1 + 1) dl3 _ _ hp3 hdne (by decide)]
  obtain ⟨dl4, p4, hp4, e4⟩ := octet_step d hd []
    (some 46) (0 + 1 + 1 + 1)
    ((([0, 0, 0, 0].set 0 (a % 256)).set (0 + 1) (b % 256)).set (0 + 1 + 1) (c % 256))
  rw [e4]
  simp [parseIPv4Loop, Nat.mod_eq_of_lt ha, Nat.mod_eq_of_lt hb, Nat.mod_eq_of_lt hc,
    Nat.mod_eq_of_lt hd]

theorem parseAddrScan_digits (s ds rest : List Nat)
    (hds : ds.all (fun c => decide (48 ≤ c ∧ c ≤ 57)) = true) :
    parseAddrScan s (ds ++ 46 :: rest) = parseIPv4 s := by
  induction ds with
  | nil => simp [parseAddrScan]
  | cons c ds ih =>
    simp only [List.all_cons, Bool.and_eq_true, decide_eq_true_eq] at hds
    obtain ⟨⟨h1, h2⟩, hrest⟩ := hds
    have n1 : c ≠ 46 := by omega
    have n2 : c ≠ 58 := by omega
    have n3 : c ≠ 37 := by omega
    simp only [List.cons_append, parseAddrScan, n1, n2, n3, if_false]
    exact ih hrest

theorem ParseIP_dottedQuad (a b c d : Nat) (ha : a < 256) (hb : b < 256)
    (hc : c < 256) (hd : d < 256) :
    ParseIP (str (dottedQuad a b c d)) = some (v4InV6 a b c d) := by
  have hscan : ParseAddr (str (dottedQuad a b c d)) = parseIPv4 (str (dottedQuad a b c d)) := by
    unfold ParseAddr
    conv => lhs; arg 2; rw [str_dottedQuad]
    exact parseAddrScan_digits _ _ _ (runDigits_octet a ha).2.1
  simp [ParseIP, hscan, parseIPv4, parseIPv4Fields_dottedQuad a b c d ha hb hc hd, AddrFrom4,
    v4InV6]

set_option maxRecDepth 1000000 in
theorem byte_masks : ∀ x, x < 256 →
    (x &&& 255 = x) ∧ (x &&& 224 = 0 ↔ x < 32) ∧ (x &&& 128 = 0 ↔ x < 128) ∧
    (x &&& 128 = 128 ↔ 128 ≤ x) := by
  decide

theorem registry_networkNumberAndMask :
    ∀ n ∈ registryNetworks, networkNumberAndMask n = some (n.IP, n.Mask) := by
  decide

theorem contains_registry (n : IPNet) (hn : n ∈ registryNetworks) (ip : List Nat) :
    n.Contains ip = true ↔
      (canonicalIP ip).length = n.IP.length ∧ containsLoop n.IP n.Mask (canonicalIP ip) = true := by
  simp only [IPNet.Contains, registry_networkNumberAndMask n hn, Option.map_some',
    Option.getD_some, canonicalIP]
  split <;> simp_all

theorem anyContains_iff (nets : List IPNet) (ip : List Nat) :
    anyContains nets ip = true ↔ ∃ n ∈ nets, n.Contains ip = true := by
  induction nets with
  | nil => simp [anyContains]
  | cons n rest ih =>
    simp only [anyContains, List.mem_cons, exists_eq_or_imp]
    by_cases h : n.Contains ip = true
    · simp [h]
    · simp [h, ih]

theorem anyContains_registry (ip : List Nat) :
    anyContains registryNetworks ip = true ↔
      ∃ n ∈ registryNetworks, (canonicalIP ip).length = n.IP.length ∧
        containsLoop n.IP n.Mask (canonicalIP ip) = true := by
  rw [anyContains_iff]
  constructor
  · rintro ⟨n, hn, h⟩
    exact ⟨n, hn, (contains_registry n hn ip).mp h⟩
  · rintro ⟨n, hn, h⟩
    exact ⟨n, hn, (contains_registry n hn ip).mpr h⟩

theorem anyContains_v4 (ip : List Nat) (a b c d : Nat) (h4 : canonicalIP ip = [a, b, c, d])
    (ha : a < 256) (hb : b < 256) (hc : c < 256) (hd : d < 256) :
    anyContains registryNetworks ip = true ↔ inTrustedIPv4Ranges a b c d := by
  have a1 := (byte_masks a ha).1
  have b1 := (byte_masks b hb).1
  have c1 := (byte_masks c hc).1
  obtain ⟨d1, d2, d3, d4⟩ := byte_masks d hd
  rw [anyContains_registry, h4]
  simp only [registryNetworks, List.mem_cons, List.mem_singleton, exists_eq_or_imp,
    exists_eq_left, containsLoop, List.length_cons, List.length_nil, List.not_mem_nil,
    false_and, exists_false, or_false, a1, b1, c1, d1]
  have e2 : (0 = d &&& 224) ↔ d < 32 := by rw [eq_comm]; exact d2
  have e3 : (0 = d &&& 128) ↔ d < 128 := by rw [eq_comm]; exact d3
  have e4 : (128 = d &&& 128) ↔ 128 ≤ d := by rw [eq_comm]; exact d4
  have k1 : (185 : Nat) &&& 255 = 185 := by decide
  have k2 : (71 : Nat) &&& 255 = 71 := by decide
  have k3 : (76 : Nat) &&& 255 = 76 := by decide
  have k4 : (77 : Nat) &&& 255 = 77 := by decide
  have k5 : (75 : Nat) &&& 255 = 75 := by decide
  have k6 : (153 : Nat) &&& 255 = 153 := by decide
  have k7 : (154 : Nat) &&& 255 = 154 := by decide
  have k8 : (156 : Nat) &&& 255 = 156 := by decide
  have k9 : (11 : Nat) &&& 255 = 11 := by decide
  have k10 : (35 : Nat) &&& 255 = 35 := by decide
  have k11 : (0 : Nat) &&& 224 = 0 := by decide
  have k12 : (0 : Nat) &&& 128 = 0 := by decide
  have k13 : (128 : Nat) &&& 128 = 128 := by decide
  simp only [k1, k2, k3, k4, k5, k6, k7, k8, k9, k10, k11, k12, k13]
  clear k1 k2 k3 k4 k5 k6 k7 k8 k9 k10 k11 k12 k13 a1 b1 c1 d1 d2 d3 d4
  simp only [inTrustedIPv4Ranges, ipv4Number, ne_eq, ite_not, Bool.if_false_right,
    Bool.and_true, Bool.and_eq_true, decide_eq_true_eq, true_and, e2, e3, e4, Nat.reduceAdd,
    Nat.reduceEqDiff, false_and, or_false]
  clear e2 e3 e4 h4
  constructor
  · rintro (⟨h1, h2, h3, h5⟩ | ⟨h1, h2, h3, h5⟩ | ⟨h1, h2, h3, h5⟩ | ⟨h1, h2, h3, h5⟩ |
      ⟨h1, h2, h3, h5⟩ | ⟨h1, h2, h3, h5⟩)
    · left; omega
    · right; left; omega
    · right; right; left; omega
    · right; right; right; left; omega
    · right; right; right; right; left; omega
    · right; right; right; right; right; omega
  · rintro (h | h | h | h | h | h)
    · left; refine ⟨?_, ?_, ?_, ?_⟩ <;> omega
    · right; left; refine ⟨?_, ?_, ?_, ?_⟩ <;> omega
    · right; right; left; refine ⟨?_, ?_, ?_, ?_⟩ <;> omega
    · right; right; right; left; refine ⟨?_, ?_, ?_, ?_⟩ <;> omega
    · right; right; right; right; left; refine ⟨?_, ?_, ?_, ?_⟩ <;> omega
    · right; right; right; right; right; refine ⟨?_, ?_, ?_, ?_⟩ <;> omega

theorem canonicalIP_v4InV6 (a b c d : Nat) : canonicalIP (v4InV6 a b c d) = [a, b, c, d] := by
  simp [canonicalIP, To4, v4InV6]

/-- C2: for an IPv4 address `a.b.c.d` (each number below 256) written as a
dotted-quad literal, `IsNotificationIPTrusted` is true exactly when the address
lies in 185.71.76.0-185.71.76.31, 185.71.77.0-185.71.77.31,
77.75.153.0-77.75.153.127, 77.75.154.128-77.75.154.255, or is 77.75.156.11 or
77.75.156.35.  So around the two /32 entries only the exact address is
trusted, and no address of 127.0.0.0/8, 10.0.0.0/8 or 192.168.0.0/16 is. -/
theorem ipv4_trusted_iff (a b c d : Nat) (ha : a < 256) (hb : b < 256) (hc : c < 256)
    (hd : d < 256) :
    (IsNotificationIPTrusted loaded (dottedQuad a b c d) = true ↔ inTrustedIPv4Ranges a b c d) ∧
    (a = 77 ∧ b = 75 ∧ c = 156 →
      (IsNotificationIPTrusted loaded (dottedQuad a b c d) = true ↔ d = 11 ∨ d = 35)) ∧
    (a = 127 ∨ a = 10 ∨ (a = 192 ∧ b = 168) →
      IsNotificationIPTrusted loaded (dottedQuad a b c d) = false) := by
  have key : IsNotificationIPTrusted loaded (dottedQuad a b c d) = true ↔
      inTrustedIPv4Ranges a b c d := by
    simp only [IsNotificationIPTrusted, ParseIP_dottedQuad a b c d ha hb hc hd,
      loaded_trustedNetworks]
    exact anyContains_v4 _ a b c d (canonicalIP_v4InV6 a b c d) ha hb hc hd
  refine ⟨key, ?_, ?_⟩
  · rintro ⟨rfl, rfl, rfl⟩
    rw [key]
    simp only [inTrustedIPv4Ranges, ipv4Number]
    omega
  · intro h
    rw [← Bool.not_eq_true, key]
    simp only [inTrustedIPv4Ranges, ipv4Number]
    omega

theorem ipv4_trusted_iff_witness :
    (IsNotificationIPTrusted loaded (dottedQuad 77 75 154 200) = true ↔
      inTrustedIPv4Ranges 77 75 154 200) ∧ inTrustedIPv4Ranges 77 75 154 200 ∧
    dottedQuad 77 75 154 200 = "77.75.154.200" :=
  ⟨(ipv4_trusted_iff 77 75 154 200 (by decide) (by decide) (by decide) (by decide)).1,
   by unfold inTrustedIPv4Ranges ipv4Number; decide, by decide⟩

/-! ## What the parsers accept and what they return -/

theorem mem_set_lt (l : List Nat) (i v : Nat) (hl : ∀ x ∈ l, x < 256) (hv : v < 256) :
    ∀ x ∈ l.set i v, x < 256 := by
  intro x hx
  rcases List.mem_or_eq_of_mem_set hx with h | h
  · exact hl x h
  · rw [h]
    exact hv

theorem getD_lt (l : List Nat) (i : Nat) (hl : ∀ x ∈ l, x < 256) : l.getD i 0 < 256 := by
  rw [List.getD_eq_getElem?_getD]
  cases h : l[i]? with
  | none => simp
  | some v =>
    simp only [Option.getD_some]
    exact hl v (List.getElem?_mem h)

theorem parseIPv4Loop_accepts (s : List Nat) :
    ∀ (prev : Option Nat) (val pos digLen : Nat) (fields f : List Nat),
      parseIPv4Loop s prev val pos digLen fields = some f →
      (∀ x ∈ fields, x < 256) →
      (∀ b ∈ s, (48 ≤ b ∧ b ≤ 57) ∨ b = 46) ∧ (∀ x ∈ f, x < 256) := by
  induction s with
  | nil =>
    intro prev val pos digLen fields f h hf
    simp only [parseIPv4Loop] at h
    split at h
    · cases h
    · simp only [Option.some.injEq] at h
      subst h
      exact ⟨by simp, mem_set_lt _ _ _ hf (Nat.mod_lt _ (by decide))⟩
  | cons c rest ih =>
    intro prev val pos digLen fields f h hf
    simp only [parseIPv4Loop] at h
    split at h
    · rename_i hc
      split at h
      · cases h
      · split at h
        · cases h
        · obtain ⟨h1, h2⟩ := ih _ _ _ _ _ _ h hf
          refine ⟨?_, h2⟩
          intro b hb
          rcases List.mem_cons.mp hb with hb | hb
          · rw [hb]
            exact Or.inl hc
          · exact h1 b hb
    · split at h
      · rename_i hc
        split at h
        · cases h
        · split at h
          · cases h
          · obtain ⟨h1, h2⟩ := ih _ _ _ _ _ _ h (mem_set_lt _ _ _ hf (Nat.mod_lt _ (by decide)))
            refine ⟨?_, h2⟩
            intro b hb
            rcases List.mem_cons.mp hb with hb | hb
            · rw [hb, hc]
              exact Or.inr rfl
            · exact h1 b hb
      · cases h

theorem hexLoop_accepts (s : List Nat) :
    ∀ (off acc off1 acc1 : Nat), hexLoop s off acc = some (off1, acc1) →
      off ≤ off1 ∧ off1 - off ≤ s.length ∧ ∀ b ∈ s.take (off1 - off), isLiteralByte b := by
  induction s with
  | nil =>
    intro off acc off1 acc1 h
    simp only [hexLoop, Option.some.injEq, Prod.mk.injEq] at h
    obtain ⟨rfl, rfl⟩ := h
    simp
  | cons c rest ih =>
    intro off acc off1 acc1 h
    simp only [hexLoop] at h
    have step : ∀ a1, isLiteralByte c → hexLoop rest (off + 1) a1 = some (off1, acc1) →
        off ≤ off1 ∧ off1 - off ≤ (c :: rest).length ∧
          ∀ b ∈ (c :: rest).take (off1 - off), isLiteralByte b := by
      intro a1 hc hr
      obtain ⟨h1, h2, h3⟩ := ih _ _ _ _ hr
      refine ⟨by omega, by simp only [List.length_cons]; omega, ?_⟩
      have e : off1 - off = (off1 - (off + 1)) + 1 := by omega
      rw [e, List.take_succ_cons]
      intro b hb
      rcases List.mem_cons.mp hb with hb | hb
      · rw [hb]
        exact hc
      · exact h3 b hb
    split at h
    · rename_i hc
      split at h
      · cases h
      · split at h
        · cases h
        · exact step _ (Or.inl hc) h
    · split at h
      · rename_i hc
        split at h
        · cases h
        · split at h
          · cases h
          · exact step _ (Or.inr (Or.inl hc)) h
      · split at h
        · rename_i hc
          split at h
          · cases h
          · split at h
            · cases h
            · exact step _ (Or.inr (Or.inr (Or.inl hc))) h
        · simp only [Option.some.injEq, Prod.mk.injEq] at h
          obtain ⟨rfl, rfl⟩ := h
          simp

theorem cons_drop_one (l : List Nat) (c : Nat) (hl : l.length ≠ 0) (hc : l.getD 0 0 = c) :
    l = c :: l.drop 1 := by
  cases l with
  | nil => simp at hl
  | cons x xs =>
    simp only [List.getD_cons_zero] at hc
    simp [hc]

theorem isBytes16_set (ip : List Nat) (i v : Nat) (h : IsBytes16 ip) (hv : v < 256) :
    IsBytes16 (ip.set i v) :=
  ⟨by rw [List.length_set]; exact h.1, mem_set_lt _ _ _ h.2 hv⟩

theorem parseIPv4Fields_digits (s f : List Nat) (h : parseIPv4Fields s = some f) :
    (∀ b ∈ s, (48 ≤ b ∧ b ≤ 57) ∨ b = 46) ∧ (∀ x ∈ f, x < 256) := by
  apply parseIPv4Loop_accepts s none 0 0 0 [0, 0, 0, 0] f h
  decide

theorem parseIPv4Fields_accepts (s f : List Nat) (h : parseIPv4Fields s = some f) :
    (∀ b ∈ s, isLiteralByte b) ∧ (∀ x ∈ f, x < 256) := by
  obtain ⟨h1, h2⟩ := parseIPv4Fields_digits s f h
  refine ⟨?_, h2⟩
  intro b hb
  rcases h1 b hb with hd | hd
  · exact Or.inl hd
  · exact Or.inr (Or.inr (Or.inr (Or.inl hd)))

theorem parseIPv6Loop_accepts (fuel : Nat) :
    ∀ (s : List Nat) (i : Nat) (ip : List Nat) (e : Option Nat)
      (r : List Nat × Nat × List Nat × Option Nat),
      parseIPv6Loop fuel s i ip e = some r → IsBytes16 ip →
      (∃ pre, s = pre ++ r.1 ∧ ∀ b ∈ pre, isLiteralByte b) ∧ IsBytes16 r.2.2.1 := by
  induction fuel with
  | zero =>
    intro s i ip e r h hip
    simp only [parseIPv6Loop] at h
    split at h
    · cases h
    · simp only [Option.some.injEq] at h
      subst h
      exact ⟨⟨[], by simp⟩, hip⟩
  | succ fuel ih =>
    intro s i ip e r h hip
    simp only [parseIPv6Loop] at h
    split at h
    · simp only [Option.some.injEq] at h
      subst h
      exact ⟨⟨[], by simp⟩, hip⟩
    · split at h
      · cases h
      · rename_i off acc hhex
        obtain ⟨_, hoff, hpre⟩ := hexLoop_accepts s 0 0 off acc hhex
        simp only [Nat.sub_zero] at hoff hpre
        have hip1 : IsBytes16 ((ip.set i (acc / 256 % 256)).set (i + 1) (acc % 256)) :=
          isBytes16_set _ _ _ (isBytes16_set _ _ _ hip (Nat.mod_lt _ (by decide)))
            (Nat.mod_lt _ (by decide))
        have hsplit : s = s.take off ++ s.drop off := (List.take_append_drop off s).symm
        split at h
        · cases h
        · split at h
          · split at h
            · cases h
            · split at h
              · cases h
              · split at h
                · cases h
                · rename_i f hf
                  simp only [Option.some.injEq] at h
                  subst h
                  obtain ⟨hs, hfb⟩ := parseIPv4Fields_accepts s f hf
                  refine ⟨⟨s, by simp, hs⟩, ?_⟩
                  exact isBytes16_set _ _ _ (isBytes16_set _ _ _ (isBytes16_set _ _ _
                    (isBytes16_set _ _ _ hip (getD_lt f 0 hfb)) (getD_lt f 1 hfb))
                    (getD_lt f 2 hfb)) (getD_lt f 3 hfb)
          · split at h
            · simp only [Option.some.injEq] at h
              subst h
              exact ⟨⟨s.take off, hsplit, hpre⟩, hip1⟩
            · rename_i hlen1
              split at h
              · cases h
              · rename_i hcolon
                simp only [ne_eq, Decidable.not_not] at hcolon
                have hs1 : s.drop off = 58 :: (s.drop off).drop 1 :=
                  cons_drop_one _ 58 hlen1 hcolon
                split at h
                · cases h
                · rename_i hlen2
                  have hpre2 : ∀ b ∈ s.take off ++ [58], isLiteralByte b := by
                    intro b hb
                    rcases List.mem_append.mp hb with hb | hb
                    · exact hpre b hb
                    · simp only [List.mem_singleton] at hb
                      rw [hb]
                      decide
                  have hsplit2 : s = (s.take off ++ [58]) ++ (s.drop off).drop 1 := by
                    rw [List.append_assoc, List.singleton_append, ← hs1]
                    exact hsplit
                  split at h
                  · rename_i hcolon2
                    have hlen3 : ((s.drop off).drop 1).length ≠ 0 := by
                      have : (s.drop off).length = ((s.drop off).drop 1).length + 1 := by
                        conv => lhs; rw [hs1]
                        simp
                      omega
                    have hs2 : (s.drop off).drop 1 = 58 :: ((s.drop off).drop 1).drop 1 :=
                      cons_drop_one _ 58 hlen3 hcolon2
                    have hpre3 : ∀ b ∈ s.take off ++ [58] ++ [58], isLiteralByte b := by
                      intro b hb
                      rcases List.mem_append.mp hb with hb | hb
                      · exact hpre2 b hb
                      · simp only [List.mem_singleton] at hb
                        rw [hb]
                        decide
                    have hsplit3 : s = (s.take off ++ [58] ++ [58]) ++
                        ((s.drop off).drop 1).drop 1 := by
                      rw [List.append_assoc (s.take off ++ [58]), List.singleton_append, ← hs2]
                      exact hsplit2
                    split at h
                    · cases h
                    · split at h
                      · simp only [Option.some.injEq] at h
                        subst h
                        exact ⟨⟨_, hsplit3, hpre3⟩, hip1⟩
                      · obtain ⟨⟨pre, hp1, hp2⟩, hb⟩ := ih _ _ _ _ _ h hip1
                        refine ⟨⟨(s.take off ++ [58] ++ [58]) ++ pre, ?_, ?_⟩, hb⟩
                        · rw [List.append_assoc _ pre, ← hp1]
                          exact hsplit3
                        · intro b hb
                          rcases List.mem_append.mp hb with hb | hb
                          · exact hpre3 b hb
                          · exact hp2 b hb
                  · obtain ⟨⟨pre, hp1, hp2⟩, hb⟩ := ih _ _ _ _ _ h hip1
                    refine ⟨⟨(s.take off ++ [58]) ++ pre, ?_, ?_⟩, hb⟩
                    · rw [List.append_assoc _ pre, ← hp1]
                      exact hsplit2
                    · intro b hb
                      rcases List.mem_append.mp hb with hb | hb
                      · exact hpre2 b hb
                      · exact hp2 b hb

theorem shiftLoop_bytes (e n k : Nat) : ∀ ip, IsBytes16 ip → IsBytes16 (shiftLoop e n k ip) := by
  induction k with
  | zero => intro ip h; exact h
  | succ k ih =>
    intro ip h
    simp only [shiftLoop]
    exact ih _ (isBytes16_set _ _ _ h (getD_lt ip _ h.2))

theorem clearRange_bytes (lo n : Nat) : ∀ ip, IsBytes16 ip → IsBytes16 (clearRange lo n ip) := by
  induction n with
  | zero => intro ip h; exact h
  | succ n ih =>
    intro ip h
    simp only [clearRange]
    exact ih _ (isBytes16_set _ _ _ h (by decide))

theorem indexByte_none (s : List Nat) (b : Nat) (h : indexByte s b = none) : b ∉ s := by
  simp only [indexByte] at h
  split at h
  · cases h
  · rename_i hlt
    intro hmem
    exact hlt (List.indexOf_lt_length.mpr hmem)

theorem parseIPv6_finish (s0 : List Nat) (e0 : Option Nat) (zone : List Nat) (a : Addr)
    (h : (match parseIPv6Loop 8 s0 0 (List.replicate 16 0) e0 with
      | none => none
      | some (s1, i, ip, ellipsis) =>
        if s1.length ≠ 0 then none
        else if i < 16 then
          match ellipsis with
          | none => none
          | some e =>
            some { bytes := clearRange e (16 - i) (shiftLoop e (16 - i) (i - e) ip),
                   is4 := false, zone := zone }
        else if ellipsis ≠ none then none
        else some { bytes := ip, is4 := false, zone := zone }) = some a) :
    IsBytes16 a.bytes ∧ a.is4 = false ∧ a.zone = zone ∧ ∀ b ∈ s0, isLiteralByte b := by
  have hz16 : IsBytes16 (List.replicate 16 0) := by
    constructor
    · simp
    · intro x hx
      rw [List.eq_of_mem_replicate hx]
      decide
  split at h
  · cases h
  · rename_i s1 i ip ellipsis hloop
    obtain ⟨⟨pre, hp1, hp2⟩, hb16⟩ := parseIPv6Loop_accepts _ _ _ _ _ _ hloop hz16
    simp only at hp1 hb16
    split at h
    · cases h
    · rename_i hs1
      simp only [ne_eq, Decidable.not_not] at hs1
      have hs1nil : s1 = [] := List.length_eq_zero.mp hs1
      rw [hs1nil, List.append_nil] at hp1
      have hall : ∀ b ∈ s0, isLiteralByte b := by
        rw [hp1]
        exact hp2
      split at h
      · split at h
        · cases h
        · simp only [Option.some.injEq] at h
          subst h
          exact ⟨clearRange_bytes _ _ _ (shiftLoop_bytes _ _ _ _ hb16), rfl, rfl, hall⟩
      · split at h
        · cases h
        · simp only [Option.some.injEq] at h
          subst h
          exact ⟨hb16, rfl, rfl, hall⟩

theorem parseIPv6_accepts (input : List Nat) (a : Addr) (h : parseIPv6 input = some a) :
    IsBytes16 a.bytes ∧ a.is4 = false ∧ (a.zone = [] → ∀ b ∈ input, isLiteralByte b) := by
  have hz16 : IsBytes16 (List.replicate 16 0) := by
    constructor
    · simp
    · intro x hx
      rw [List.eq_of_mem_replicate hx]
      decide
  simp only [parseIPv6] at h
  split at h
  · cases h
  · rename_i s zone hsz
    -- the zone split: with an empty zone in the result, `s` is the whole input
    have hzone : zone = [] → s = input := by
      intro hz
      split at hsz
      · simp only [Option.some.injEq, Prod.mk.injEq] at hsz
        exact hsz.1.symm
      · split at hsz
        · cases hsz
        · rename_i hne
          simp only [Option.some.injEq, Prod.mk.injEq] at hsz
          rw [hsz.2] at hne
          exact absurd hz hne
    by_cases hlead : s.length ≥ 2 ∧ s.getD 0 0 = 58 ∧ s.getD 1 0 = 58
    · simp only [hlead, and_self, decide_True, if_true, true_and] at h
      have e1 : s = 58 :: s.drop 1 := cons_drop_one s 58 (by omega) hlead.2.1
      have e2 : s.drop 1 = 58 :: (s.drop 1).drop 1 := by
        apply cons_drop_one
        · simp only [List.length_drop]; omega
        · rw [← hlead.2.2]
          conv => rhs; rw [e1]
          simp
      rw [List.drop_drop] at e2
      simp only [Nat.reduceAdd] at e2
      have hcover : (∀ b ∈ s.drop 2, isLiteralByte b) → ∀ b ∈ s, isLiteralByte b := by
        intro hd b hb
        rw [e1, e2] at hb
        simp only [List.mem_cons] at hb
        rcases hb with hb | hb | hb
        · rw [hb]; decide
        · rw [hb]; decide
        · exact hd b hb
      split at h
      · rename_i hl0
        simp only [Option.some.injEq] at h
        subst h
        refine ⟨hz16, rfl, ?_⟩
        intro hz
        simp only at hz
        have hs := hzone hz
        subst hs
        apply hcover
        rw [List.length_eq_zero.mp hl0]
        simp
      · obtain ⟨hb, h4, hz, hall⟩ := parseIPv6_finish _ _ _ _ h
        refine ⟨hb, h4, ?_⟩
        intro hzz
        have hs := hzone (hz ▸ hzz)
        subst hs
        exact hcover hall
    · simp only [hlead, decide_False, if_false, false_and] at h
      obtain ⟨hb, h4, hz, hall⟩ := parseIPv6_finish _ _ _ _ h
      refine ⟨hb, h4, ?_⟩
      intro hzz
      have hs := hzone (hz ▸ hzz)
      subst hs
      exact hall

theorem parseAddrScan_some (s : List Nat) (a : Addr) :
    ∀ l, parseAddrScan s l = some a → l ≠ [] ∧ (parseIPv4 s = some a ∨ parseIPv6 s = some a) := by
  intro l
  induction l with
  | nil =>
    intro h
    simp [parseAddrScan] at h
  | cons c rest ih =>
    intro h
    refine ⟨by simp, ?_⟩
    simp only [parseAddrScan] at h
    split at h
    · exact Or.inl h
    · split at h
      · exact Or.inr h
      · split at h
        · cases h
        · exact (ih h).2

theorem parseIPv4_accepts (s : List Nat) (a : Addr) (h : parseIPv4 s = some a) :
    IsBytes16 a.bytes ∧ a.zone = [] ∧ (∀ b ∈ s, isLiteralByte b) ∧
      ∃ w x y z, a.bytes = v4InV6 w x y z := by
  simp only [parseIPv4] at h
  split at h
  · cases h
  · rename_i f hf
    simp only [Option.some.injEq] at h
    subst h
    obtain ⟨hs, hfb⟩ := parseIPv4Fields_accepts s f hf
    refine ⟨⟨rfl, ?_⟩, rfl, hs, ⟨_, _, _, _, rfl⟩⟩
    intro x hx
    simp only [AddrFrom4, List.mem_cons, List.mem_singleton, List.not_mem_nil, or_false] at hx
    have := getD_lt f 0 hfb
    have := getD_lt f 1 hfb
    have := getD_lt f 2 hfb
    have := getD_lt f 3 hfb
    rcases hx with h | h | h | h | h | h | h | h | h | h | h | h | h | h | h | h <;> omega

/-- What a successful `net.ParseIP` tells: the result is 16 bytes, the input
is not empty and made of hex digits, dots and colons only. -/
theorem ParseIP_some (s ip : List Nat) (h : ParseIP s = some ip) :
    IsBytes16 ip ∧ s ≠ [] ∧ (∀ b ∈ s, isLiteralByte b) ∧
      ∃ a, ParseAddr s = some a ∧ a.zone = [] ∧ a.bytes = ip := by
  simp only [ParseIP] at h
  split at h
  · cases h
  · rename_i a ha
    split at h
    · cases h
    · rename_i hz
      simp only [ne_eq, Decidable.not_not] at hz
      simp only [Option.some.injEq] at h
      subst h
      obtain ⟨hne, hp⟩ := parseAddrScan_some s a s ha
      rcases hp with hp | hp
      · obtain ⟨h1, _, h3, _⟩ := parseIPv4_accepts s a hp
        exact ⟨h1, hne, h3, a, ha, hz, rfl⟩
      · obtain ⟨h1, _, h3⟩ := parseIPv6_accepts s a hp
        exact ⟨h1, hne, h3 hz, a, ha, hz, rfl⟩

theorem list16 (l : List Nat) (h : l.length = 16) :
    ∃ x0 x1 x2 x3 x4 x5 x6 x7 x8 x9 x10 x11 x12 x13 x14 x15,
      l = [x0, x1, x2, x3, x4, x5, x6, x7, x8, x9, x10, x11, x12, x13, x14, x15] := by
  match l, h with
  | [x0, x1, x2, x3, x4, x5, x6, x7, x8, x9, x10, x11, x12, x13, x14, x15], _ =>
    exact ⟨x0, x1, x2, x3, x4, x5, x6, x7, x8, x9, x10, x11, x12, x13, x14, x15, rfl⟩

theorem To4_bytes16 (ip : List Nat) (h : IsBytes16 ip) :
    (To4 ip = none ∧ canonicalIP ip = ip) ∨
    ∃ a b c d, ip = v4InV6 a b c d ∧ To4 ip = some [a, b, c, d] ∧ canonicalIP ip = [a, b, c, d] ∧
      a < 256 ∧ b < 256 ∧ c < 256 ∧ d < 256 := by
  obtain ⟨x0, x1, x2, x3, x4, x5, x6, x7, x8, x9, x10, x11, x12, x13, x14, x15, rfl⟩ :=
    list16 ip h.1
  by_cases hm : (x0 = 0 ∧ x1 = 0 ∧ x2 = 0 ∧ x3 = 0 ∧ x4 = 0 ∧ x5 = 0 ∧ x6 = 0 ∧ x7 = 0 ∧
      x8 = 0 ∧ x9 = 0) ∧ x10 = 255 ∧ x11 = 255
  · right
    obtain ⟨⟨rfl, rfl, rfl, rfl, rfl, rfl, rfl, rfl, rfl, rfl⟩, rfl, rfl⟩ := hm
    refine ⟨x12, x13, x14, x15, rfl, by simp [To4], by simp [canonicalIP, To4], ?_, ?_, ?_, ?_⟩ <;>
      exact h.2 _ (by simp)
  · left
    have : To4 [x0, x1, x2, x3, x4, x5, x6, x7, x8, x9, x10, x11, x12, x13, x14, x15] = none := by
      simp only [To4, List.length_cons, List.length_nil]
      simp only [Nat.reduceAdd, Nat.reduceEqDiff, if_false, true_and]
      rw [if_neg]
      intro hc
      apply hm
      simpa using hc
    exact ⟨this, by simp [canonicalIP, this]⟩

theorem anyContains_v6 (ip : List Nat) (h : IsBytes16 ip) (h4 : To4 ip = none) :
    anyContains registryNetworks ip = true ↔ ip.take 4 = [42, 2, 81, 128] := by
  have hc : canonicalIP ip = ip := by simp [canonicalIP, h4]
  obtain ⟨x0, x1, x2, x3, x4, x5, x6, x7, x8, x9, x10, x11, x12, x13, x14, x15, rfl⟩ :=
    list16 ip h.1
  have b0 := (byte_masks x0 (h.2 _ (by simp))).1
  have b1 := (byte_masks x1 (h.2 _ (by simp))).1
  have b2 := (byte_masks x2 (h.2 _ (by simp))).1
  have b3 := (byte_masks x3 (h.2 _ (by simp))).1
  rw [anyContains_registry, hc]
  simp [registryNetworks, containsLoop, b0, b1, b2, b3]
  constructor
  · rintro ⟨h0, h1, h2, h3⟩
    exact ⟨h0.symm, h1.symm, h2.symm, h3.symm⟩
  · rintro ⟨h0, h1, h2, h3⟩
    exact ⟨h0.symm, h1.symm, h2.symm, h3.symm⟩

theorem trusted_of_ParseIP (g : Pkg) (s : String) (ip : List Nat)
    (h : ParseIP (str s) = some ip) :
    IsNotificationIPTrusted g s = anyContains g.trustedNetworks ip := by
  simp [IsNotificationIPTrusted, h]

/-- C3, amended: for an input that parses as an IPv6 literal, the answer is
decided by the 16 bytes of the address.  If they are not an IPv4-mapped address
(`::ffff:a.b.c.d`), the input is trusted exactly when the first 32 bits are
`2a02:5180`, and no IPv4 block contains the address.  If they are the
IPv4-mapped form of `a.b.c.d`, the input is trusted exactly when `a.b.c.d` lies
in one of the six IPv4 ranges. -/
theorem ipv6_trusted_iff (s : String) (a : Addr) (h : ParseAddr (str s) = some a)
    (_h6 : a.is4 = false) (hz : a.zone = []) :
    (To4 a.bytes = none ∨ ∃ w x y z, a.bytes = v4InV6 w x y z) ∧
    (To4 a.bytes = none →
      (IsNotificationIPTrusted loaded s = true ↔ a.bytes.take 4 = [0x2a, 0x02, 0x51, 0x80]) ∧
      ∀ n ∈ registryNetworks, n.IP.length = 4 → n.Contains a.bytes = false) ∧
    (∀ w x y z, a.bytes = v4InV6 w x y z →
      (IsNotificationIPTrusted loaded s = true ↔ inTrustedIPv4Ranges w x y z)) := by
  have hp : ParseIP (str s) = some a.bytes := by
    simp [ParseIP, h, hz]
  have h16 : IsBytes16 a.bytes := (ParseIP_some _ _ hp).1
  have ht := trusted_of_ParseIP loaded s a.bytes hp
  rw [loaded_trustedNetworks] at ht
  refine ⟨?_, ?_, ?_⟩
  · rcases To4_bytes16 a.bytes h16 with h4 | ⟨w, x, y, z, hb, _⟩
    · exact Or.inl h4.1
    · exact Or.inr ⟨w, x, y, z, hb⟩
  · intro h4
    refine ⟨?_, ?_⟩
    · rw [ht]
      exact anyContains_v6 a.bytes h16 h4
    · intro n hn hlen
      rw [← Bool.not_eq_true, contains_registry n hn]
      have hc : canonicalIP a.bytes = a.bytes := by simp [canonicalIP, h4]
      rw [hc, h16.1, hlen]
      simp
  · intro w x y z hb
    rw [ht]
    rcases To4_bytes16 a.bytes h16 with h4 | ⟨w1, x1, y1, z1, hb1, _, hc, hw, hx, hy, hz1⟩
    · rw [hb] at h4
      simp [To4, v4InV6] at h4
    · have e : v4InV6 w x y z = v4InV6 w1 x1 y1 z1 := by rw [← hb, ← hb1]
      simp only [v4InV6, List.cons.injEq, and_true, true_and] at e
      obtain ⟨rfl, rfl, rfl, rfl⟩ := e
      exact anyContains_v4 a.bytes w x y z hc hw hx hy hz1

theorem ipv6_trusted_iff_witness :
    ParseAddr (str "2a02:5180::1")
      = some ⟨[42, 2, 81, 128, 0, 0, 0, 0, 0, 0, 0, 0, 0, 0, 0, 1], false, []⟩ ∧
    (IsNotificationIPTrusted loaded "2a02:5180::1" = true ↔
      [42, 2, 81, 128, 0, 0, 0, 0, 0, 0, 0, 0, 0, 0, 0, 1].take 4 = [0x2a, 0x02, 0x51, 0x80]) :=
  ⟨by decide,
   ((ipv6_trusted_iff "2a02:5180::1"
      ⟨[42, 2, 81, 128, 0, 0, 0, 0, 0, 0, 0, 0, 0, 0, 0, 1], false, []⟩
      (by decide) rfl rfl).2.1 (by decide)).1⟩

theorem str_colon : str ":" = [58] := by decide

theorem ParseIP_with_port (a b c d : Nat) (ha : a < 256) (port : String) :
    ParseIP (str (dottedQuad a b c d ++ ":" ++ port)) = none := by
  have hbytes : str (dottedQuad a b c d ++ ":" ++ port)
      = str (toString a) ++ 46 :: (str (toString b) ++ 46 :: (str (toString c) ++
          46 :: (str (toString d) ++ [])) ++ 58 :: str port) := by
    simp [str_append, str_dottedQuad, str_colon]
  have hmem : 58 ∈ str (dottedQuad a b c d ++ ":" ++ port) := by
    simp [str_append, str_colon]
  have hscan : ParseAddr (str (dottedQuad a b c d ++ ":" ++ port))
      = parseIPv4 (str (dottedQuad a b c d ++ ":" ++ port)) := by
    unfold ParseAddr
    conv => lhs; arg 2; rw [hbytes]
    exact parseAddrScan_digits _ _ _ (runDigits_octet a ha).2.1
  have hnone : parseIPv4Fields (str (dottedQuad a b c d ++ ":" ++ port)) = none := by
    cases hf : parseIPv4Fields (str (dottedQuad a b c d ++ ":" ++ port)) with
    | none => rfl
    | some f =>
      have := (parseIPv4Fields_digits _ f hf).1 58 hmem
      omega
  simp [ParseIP, hscan, parseIPv4, hnone]

/-! ## The literals the parsers accept -/

set_option maxRecDepth 1000000 in
theorem str_toString_octet : ∀ n, n < 256 → str (toString n) = canonicalDigits n := by
  decide

theorem runDigits_cons (c : Nat) (rest : List Nat) (val digLen : Nat) (prev : Option Nat)
    (r : Nat × Nat × Option Nat) (h : runDigits (c :: rest) val digLen prev = some r) :
    48 ≤ c ∧ c ≤ 57 ∧ (digLen = 1 → val ≠ 0) ∧ val * 10 + c - 48 ≤ 255 ∧
      runDigits rest (val * 10 + c - 48) (digLen + 1) (some c) = some r := by
  simp only [runDigits] at h
  split at h
  · rename_i hc
    split at h
    · cases h
    · rename_i hz
      split at h
      · cases h
      · rename_i hv
        refine ⟨hc.1, hc.2, ?_, by omega, h⟩
        intro h1 h2
        exact hz ⟨h1, h2⟩
  · cases h

theorem runDigits_canonical (ds : List Nat) (prev : Option Nat) (r : Nat × Nat × Option Nat)
    (h : runDigits ds 0 0 prev = some r) (hne : ds ≠ []) :
    r.1 < 256 ∧ ds = canonicalDigits r.1 ∧ r.2.2 ≠ none ∧ r.2.2 ≠ some 46 := by
  match ds, hne with
  | x :: rest, _ =>
    obtain ⟨x1, x2, _, x4, h⟩ := runDigits_cons _ _ _ _ _ _ h
    match rest with
    | [] =>
      simp only [runDigits, Option.some.injEq] at h
      subst h
      simp only [canonicalDigits]
      refine ⟨by omega, ?_, by simp, ?_⟩
      · rw [if_pos (by omega)]
        simp only [List.cons.injEq, and_true]
        omega
      · simp only [ne_eq, Option.some.injEq]
        omega
    | y :: rest =>
      obtain ⟨y1, y2, y3, y4, h⟩ := runDigits_cons _ _ _ _ _ _ h
      have y3 := y3 rfl
      match rest with
      | [] =>
        simp only [runDigits, Option.some.injEq] at h
        subst h
        simp only [canonicalDigits]
        refine ⟨by omega, ?_, by simp, ?_⟩
        · rw [if_neg (by omega), if_pos (by omega)]
          simp only [List.cons.injEq, and_true]
          omega
        · simp only [ne_eq, Option.some.injEq]
          omega
      | z :: rest =>
        obtain ⟨z1, z2, _, z4, h⟩ := runDigits_cons _ _ _ _ _ _ h
        match rest with
        | [] =>
          simp only [runDigits, Option.some.injEq] at h
          subst h
          simp only [canonicalDigits]
          refine ⟨by omega, ?_, by simp, ?_⟩
          · rw [if_neg (by omega), if_neg (by omega)]
            simp only [List.cons.injEq, and_true]
            omega
          · simp only [ne_eq, Option.some.injEq]
            omega
        | w :: rest =>
          obtain ⟨w1, w2, _, w4, h⟩ := runDigits_cons _ _ _ _ _ _ h
          omega


theorem parseIPv4Loop_scan (s : List Nat) :
    ∀ (prev : Option Nat) (val pos digLen : Nat) (fields f : List Nat),
      parseIPv4Loop s prev val pos digLen fields = some f →
      ∃ ds rest r, s = ds ++ rest ∧ (rest = [] ∨ ∃ t, rest = 46 :: t) ∧
        runDigits ds val digLen prev = some r ∧
        parseIPv4Loop rest r.2.2 r.1 pos r.2.1 fields = some f := by
  induction s with
  | nil =>
    intro prev val pos digLen fields f h
    exact ⟨[], [], (val, digLen, prev), rfl, Or.inl rfl, rfl, h⟩
  | cons c s ih =>
    intro prev val pos digLen fields f h
    by_cases hc : 48 ≤ c ∧ c ≤ 57
    · simp only [parseIPv4Loop, hc, and_self, if_true] at h
      split at h
      · cases h
      · rename_i hz
        split at h
        · cases h
        · rename_i hv
          obtain ⟨ds, rest, r, h1, h2, h3, h4⟩ := ih _ _ _ _ _ _ h
          refine ⟨c :: ds, rest, r, by rw [h1]; rfl, h2, ?_, h4⟩
          simp only [runDigits, hc, and_self, if_true, hz, hv, if_false]
          exact h3
    · by_cases hd : c = 46
      · exact ⟨[], c :: s, (val, digLen, prev), rfl, Or.inr ⟨s, by rw [hd]⟩, rfl, h⟩
      · simp [parseIPv4Loop, hc, hd] at h

theorem field_step (s : List Nat) (prev : Option Nat) (pos : Nat) (fields f : List Nat)
    (hs : s ≠ []) (hprev : prev = none ∨ prev = some 46)
    (h : parseIPv4Loop s prev 0 pos 0 fields = some f) :
    ∃ n, n < 256 ∧
      ((s = canonicalDigits n ∧ 3 ≤ pos ∧ f = fields.set 3 n) ∨
       (∃ t, s = canonicalDigits n ++ 46 :: t ∧ t ≠ [] ∧ pos ≠ 3 ∧
          parseIPv4Loop t (some 46) 0 (pos + 1) 0 (fields.set pos n) = some f)) := by
  obtain ⟨ds, rest, r, h1, h2, h3, h4⟩ := parseIPv4Loop_scan s prev 0 pos 0 fields f h
  have hds : ds ≠ [] := by
    intro hnil
    subst hnil
    simp only [runDigits, Option.some.injEq] at h3
    subst h3
    rcases h2 with h2 | ⟨t, h2⟩
    · subst h2
      exact hs h1
    · subst h2
      simp only [parseIPv4Loop] at h4
      rcases hprev with hp | hp <;> simp [hp] at h4
  obtain ⟨hv, hcan, hp1, hp2⟩ := runDigits_canonical ds prev r h3 hds
  refine ⟨r.1, hv, ?_⟩
  rcases h2 with h2 | ⟨t, h2⟩
  · subst h2
    left
    simp only [parseIPv4Loop] at h4
    split at h4
    · cases h4
    · rename_i hpos
      simp only [Option.some.injEq] at h4
      refine ⟨by rw [h1, List.append_nil]; exact hcan, by omega, ?_⟩
      rw [← h4, Nat.mod_eq_of_lt hv]
  · subst h2
    right
    simp only [parseIPv4Loop] at h4
    have hnd : ¬ (48 ≤ 46 ∧ 46 ≤ 57) := by omega
    simp only [hnd, if_false, if_true] at h4
    split at h4
    · cases h4
    · rename_i hcond
      split at h4
      · cases h4
      · rename_i hpos
        refine ⟨t, by rw [h1, ← hcan], ?_, hpos, ?_⟩
        · intro ht
          exact hcond (Or.inr (Or.inl ht))
        · rw [Nat.mod_eq_of_lt hv] at h4
          exact h4

theorem str_dottedQuad_canonical (a b c d : Nat) (ha : a < 256) (hb : b < 256) (hc : c < 256)
    (hd : d < 256) :
    str (dottedQuad a b c d) = canonicalDigits a ++ 46 :: (canonicalDigits b ++
      46 :: (canonicalDigits c ++ 46 :: canonicalDigits d)) := by
  rw [str_dottedQuad, str_toString_octet a ha, str_toString_octet b hb, str_toString_octet c hc,
    str_toString_octet d hd, List.append_nil]

/-- The converse of `parseIPv4Fields_dottedQuad`: the only strings
`netip.parseIPv4Fields` accepts are the dotted-quad literals of four numbers
below 256 written without leading zeros. -/
theorem parseIPv4Fields_canonical (s f : List Nat) (h : parseIPv4Fields s = some f) :
    ∃ a b c d, a < 256 ∧ b < 256 ∧ c < 256 ∧ d < 256 ∧ s = str (dottedQuad a b c d) := by
  have hs : s ≠ [] := by
    intro hnil
    subst hnil
    simp [parseIPv4Fields, parseIPv4Loop] at h
  obtain ⟨a, ha, h1⟩ := field_step s none 0 _ f hs (Or.inl rfl) h
  rcases h1 with ⟨_, hp, _⟩ | ⟨t1, e1, ht1, _, h1⟩
  · omega
  obtain ⟨b, hb, h2⟩ := field_step t1 (some 46) (0 + 1) _ f ht1 (Or.inr rfl) h1
  rcases h2 with ⟨_, hp, _⟩ | ⟨t2, e2, ht2, _, h2⟩
  · omega
  obtain ⟨c, hc, h3⟩ := field_step t2 (some 46) (0 + 1 + 1) _ f ht2 (Or.inr rfl) h2
  rcases h3 with ⟨_, hp, _⟩ | ⟨t3, e3, ht3, _, h3⟩
  · omega
  obtain ⟨d, hd, h4⟩ := field_step t3 (some 46) (0 + 1 + 1 + 1) _ f ht3 (Or.inr rfl) h3
  rcases h4 with ⟨e4, _, _⟩ | ⟨t4, _, _, hp, _⟩
  · refine ⟨a, b, c, d, ha, hb, hc, hd, ?_⟩
    rw [str_dottedQuad_canonical a b c d ha hb hc hd, e1, e2, e3, e4]
  · omega

theorem hexLoop_group (s : List Nat) :
    ∀ (off acc off1 acc1 : Nat), hexLoop s off acc = some (off1, acc1) →
      off ≤ off1 ∧ (off1 = off ∨ off1 ≤ 4) ∧ off1 - off ≤ s.length ∧
        ∀ b ∈ s.take (off1 - off), isHexByte b := by
  induction s with
  | nil =>
    intro off acc off1 acc1 h
    simp only [hexLoop, Option.some.injEq, Prod.mk.injEq] at h
    obtain ⟨rfl, rfl⟩ := h
    simp
  | cons c rest ih =>
    intro off acc off1 acc1 h
    simp only [hexLoop] at h
    have step : ∀ a1, isHexByte c → ¬ off > 3 → hexLoop rest (off + 1) a1 = some (off1, acc1) →
        off ≤ off1 ∧ (off1 = off ∨ off1 ≤ 4) ∧ off1 - off ≤ (c :: rest).length ∧
          ∀ b ∈ (c :: rest).take (off1 - off), isHexByte b := by
      intro a1 hc ho hr
      obtain ⟨h1, h2, h3, h4⟩ := ih _ _ _ _ hr
      refine ⟨by omega, by omega, by simp only [List.length_cons]; omega, ?_⟩
      have e : off1 - off = (off1 - (off + 1)) + 1 := by omega
      rw [e, List.take_succ_cons]
      intro b hb
      rcases List.mem_cons.mp hb with hb | hb
      · rw [hb]
        exact hc
      · exact h4 b hb
    split at h
    · rename_i hc
      split at h
      · cases h
      · rename_i ho
        split at h
        · cases h
        · exact step _ (Or.inl hc) ho h
    · split at h
      · rename_i hc
        split at h
        · cases h
        · rename_i ho
          split at h
          · cases h
          · exact step _ (Or.inr (Or.inl hc)) ho h
      · split at h
        · rename_i hc
          split at h
          · cases h
          · rename_i ho
            split at h
            · cases h
            · exact step _ (Or.inr (Or.inr hc)) ho h
        · simp only [Option.some.injEq, Prod.mk.injEq] at h
          obtain ⟨rfl, rfl⟩ := h
          simp

theorem colonJoin_cons (g : List Nat) (rest : List (List Nat)) (h : rest ≠ []) :
    colonJoin (g :: rest) = g ++ 58 :: colonJoin rest := by
  cases rest with
  | nil => exact absurd rfl h
  | cons x xs => rfl

theorem colonJoin_eq_nil (l : List (List Nat)) (hg : ∀ g ∈ l, g ≠ []) (h : colonJoin l = []) :
    l = [] := by
  cases l with
  | nil => rfl
  | cons g rest =>
    exfalso
    have hgne := hg g (by simp)
    cases rest with
    | nil => exact hgne h
    | cons x xs =>
      simp only [colonJoin] at h
      simp at h

theorem isHexGroup_ne_nil (g : List Nat) (h : IsHexGroup g) : g ≠ [] := by
  intro hn
  rw [hn] at h
  have := h.1
  simp at this

theorem isIPv4Literal_ne_nil (s : List Nat) (h : IsIPv4Literal s) : s ≠ [] := by
  obtain ⟨a, b, c, d, ha, _, _, _, rfl⟩ := h
  rw [str_dottedQuad]
  have := (runDigits_octet a ha).1
  simp [this]

theorem fields_ne_nil (gs : List (List Nat)) (q : Option (List Nat)) (h : IsFieldList gs q) :
    ∀ g ∈ gs ++ q.toList, g ≠ [] := by
  intro g hg
  rcases List.mem_append.mp hg with hg | hg
  · exact isHexGroup_ne_nil g (h.1 g hg)
  · exact isIPv4Literal_ne_nil g (h.2 g (by simpa using hg))


/-- What the loop of `netip.parseIPv6` has read when it ends with the whole
input used: fields joined by colons, with at most one `::` among them, and
`i` has advanced by two bytes per 16-bit piece. -/
theorem parseIPv6Loop_shape (fuel : Nat) :
    ∀ (s : List Nat) (i : Nat) (ip : List Nat) (e : Option Nat) (i1 : Nat) (ip1 : List Nat)
      (e1 : Option Nat),
      parseIPv6Loop fuel s i ip e = some ([], i1, ip1, e1) → s ≠ [] → i % 2 = 0 →
      i1 ≤ 16 ∧
      ((e1 = e ∧ ∃ gs q, IsFieldList gs q ∧ s = colonJoin (gs ++ q.toList) ∧
          i1 = i + 2 * fieldWidth gs q) ∨
       (e = none ∧ e1 ≠ none ∧ ∃ L R q, IsFieldList L none ∧ IsFieldList R q ∧
          s = colonJoin L ++ [58, 58] ++ colonJoin (R ++ q.toList) ∧
          i1 = i + 2 * (L.length + fieldWidth R q))) := by
  induction fuel with
  | zero =>
    intro s i ip e i1 ip1 e1 h hs _
    simp only [parseIPv6Loop] at h
    split at h
    · cases h
    · simp only [Option.some.injEq, Prod.mk.injEq] at h
      exact absurd h.1 hs
  | succ fuel ih =>
    intro s i ip e i1 ip1 e1 h hs hpar
    simp only [parseIPv6Loop] at h
    split at h
    · simp only [Option.some.injEq, Prod.mk.injEq] at h
      exact absurd h.1 hs
    · rename_i hi
      simp only [Decidable.not_not] at hi
      split at h
      · cases h
      · rename_i off acc hhex
        obtain ⟨_, hoff4, hoff, hpre⟩ := hexLoop_group s 0 0 off acc hhex
        simp only [Nat.sub_zero] at hoff hpre
        have hsplit : s = s.take off ++ s.drop off := (List.take_append_drop off s).symm
        split at h
        · cases h
        · rename_i hoff0
          have hgroup : IsHexGroup (s.take off) := by
            refine ⟨?_, ?_, hpre⟩
            · rw [List.length_take]; omega
            · rw [List.length_take]; omega
          have hg1 : IsFieldList [s.take off] none := by
            refine ⟨?_, by simp⟩
            intro g hg
            simp only [List.mem_singleton] at hg
            rw [hg]
            exact hgroup
          split at h
          · split at h
            · cases h
            · split at h
              · cases h
              · rename_i hroom
                split at h
                · cases h
                · rename_i f hf
                  simp only [Option.some.injEq, Prod.mk.injEq] at h
                  obtain ⟨_, hi1, _, he1⟩ := h
                  refine ⟨by omega, Or.inl ⟨he1.symm, [], some s, ?_, ?_, ?_⟩⟩
                  · refine ⟨by simp, ?_⟩
                    intro x hx
                    simp only [Option.mem_def, Option.some.injEq] at hx
                    rw [← hx]
                    exact parseIPv4Fields_canonical s f hf
                  · simp [colonJoin]
                  · simp only [fieldWidth, List.length_nil, Option.toList_some,
                      List.length_singleton]
                    omega
          · split at h
            · rename_i hlen0
              simp only [Option.some.injEq, Prod.mk.injEq] at h
              obtain ⟨_, hi1, _, he1⟩ := h
              refine ⟨by omega, Or.inl ⟨he1.symm, [s.take off], none, hg1, ?_, ?_⟩⟩
              · have : s.drop off = [] := List.length_eq_zero.mp hlen0
                rw [this, List.append_nil] at hsplit
                simpa [colonJoin] using hsplit
              · simp only [fieldWidth, List.length_singleton, Option.toList_none,
                  List.length_nil]
                omega
            · rename_i hlen1
              split at h
              · cases h
              · rename_i hcolon
                simp only [ne_eq, Decidable.not_not] at hcolon
                have hs1 : s.drop off = 58 :: (s.drop off).drop 1 :=
                  cons_drop_one _ 58 hlen1 hcolon
                split at h
                · cases h
                · rename_i hlen2
                  have hs2ne : (s.drop off).drop 1 ≠ [] := by
                    intro hn
                    have : (s.drop off).length = ((s.drop off).drop 1).length + 1 := by
                      conv => lhs; rw [hs1]
                      simp
                    rw [hn] at this
                    simp only [List.length_nil] at this
                    omega
                  have hsplit2 : s = s.take off ++ 58 :: (s.drop off).drop 1 := by
                    rw [← hs1]
                    exact hsplit
                  have hpar2 : (i + 2) % 2 = 0 := by omega
                  split at h
                  · rename_i hcolon2
                    have hs2 : (s.drop off).drop 1 = 58 :: ((s.drop off).drop 1).drop 1 :=
                      cons_drop_one _ 58 (by
                        intro hl
                        exact hs2ne (List.length_eq_zero.mp hl)) hcolon2
                    have hsplit3 : s = colonJoin [s.take off] ++ [58, 58] ++
                        ((s.drop off).drop 1).drop 1 := by
                      conv => lhs; rw [hsplit2, hs2]
                      simp [colonJoin]
                    split at h
                    · cases h
                    · rename_i he
                      simp only [ne_eq, Decidable.not_not] at he
                      split at h
                      · rename_i hlen3
                        simp only [Option.some.injEq, Prod.mk.injEq] at h
                        obtain ⟨_, hi1, _, he1⟩ := h
                        refine ⟨by omega, Or.inr ⟨he, by rw [← he1]; simp,
                          [s.take off], [], none, hg1, ⟨by simp, by simp⟩, ?_, ?_⟩⟩
                        · have : ((s.drop off).drop 1).drop 1 = [] :=
                            List.length_eq_zero.mp hlen3
                          rw [this] at hsplit3
                          simpa [colonJoin] using hsplit3
                        · simp only [fieldWidth, List.length_singleton, Option.toList_none,
                            List.length_nil]
                          omega
                      · rename_i hlen3
                        have hs3ne : ((s.drop off).drop 1).drop 1 ≠ [] := by
                          intro hn
                          exact hlen3 (by rw [hn]; rfl)
                        obtain ⟨hle, hcase⟩ := ih _ _ _ _ _ _ _ h hs3ne hpar2
                        refine ⟨hle, ?_⟩
                        rcases hcase with ⟨he1, gs, q, hfl, hs3, hi1⟩ | ⟨hnone, _⟩
                        · refine Or.inr ⟨he, by rw [he1]; simp, [s.take off], gs, q, hg1, hfl,
                            ?_, ?_⟩
                          · rw [← hs3]
                            exact hsplit3
                          · simp only [List.length_singleton]
                            omega
                        · cases hnone
                  · obtain ⟨hle, hcase⟩ := ih _ _ _ _ _ _ _ h hs2ne hpar2
                    refine ⟨hle, ?_⟩
                    rcases hcase with ⟨he1, gs, q, hfl, hs3, hi1⟩ | ⟨hnone, hsome, L, R, q, hL,
                        hR, hs3, hi1⟩
                    · refine Or.inl ⟨he1, s.take off :: gs, q, ?_, ?_, ?_⟩
                      · refine ⟨?_, hfl.2⟩
                        intro g hg
                        rcases List.mem_cons.mp hg with hg | hg
                        · rw [hg]
                          exact hgroup
                        · exact hfl.1 g hg
                      · have hne : gs ++ q.toList ≠ [] := by
                          intro hn
                          rw [hn] at hs3
                          exact hs2ne hs3
                        rw [List.cons_append, colonJoin_cons _ _ hne, ← hs3]
                        exact hsplit2
                      · simp only [fieldWidth, List.length_cons] at hi1 ⊢
                        omega
                    · refine Or.inr ⟨hnone, hsome, s.take off :: L, R, q, ?_, hR, ?_, ?_⟩
                      · refine ⟨?_, by simp⟩
                        intro g hg
                        rcases List.mem_cons.mp hg with hg | hg
                        · rw [hg]
                          exact hgroup
                        · exact hL.1 g hg
                      · by_cases hLn : L = []
                        · subst hLn
                          -- the rest starts with `::` although its first byte is not a colon
                          exfalso
                          rename_i hnc
                          apply hnc
                          rw [hs3]
                          simp [colonJoin]
                        · rw [colonJoin_cons _ _ hLn, List.append_assoc, List.append_assoc,
                            List.cons_append, ← List.append_assoc (colonJoin L), ← hs3]
                          exact hsplit2
                      · simp only [List.length_cons] at hi1 ⊢
                        omega


theorem parseIPv6_finish_loop (s0 : List Nat) (e0 : Option Nat) (zone : List Nat) (a : Addr)
    (h : (match parseIPv6Loop 8 s0 0 (List.replicate 16 0) e0 with
      | none => none
      | some (s1, i, ip, ellipsis) =>
        if s1.length ≠ 0 then none
        else if i < 16 then
          match ellipsis with
          | none => none
          | some e =>
            some { bytes := clearRange e (16 - i) (shiftLoop e (16 - i) (i - e) ip),
                   is4 := false, zone := zone }
        else if ellipsis ≠ none then none
        else some { bytes := ip, is4 := false, zone := zone }) = some a) :
    ∃ i ip ellipsis, parseIPv6Loop 8 s0 0 (List.replicate 16 0) e0 = some ([], i, ip, ellipsis) ∧
      ((i < 16 ∧ ellipsis ≠ none) ∨ (16 ≤ i ∧ ellipsis = none)) := by
  split at h
  · cases h
  · rename_i s1 i ip ellipsis hloop
    split at h
    · cases h
    · rename_i hs1
      simp only [ne_eq, Decidable.not_not] at hs1
      have hs1nil : s1 = [] := List.length_eq_zero.mp hs1
      subst hs1nil
      refine ⟨i, ip, ellipsis, hloop, ?_⟩
      split at h
      · rename_i hi
        split at h
        · cases h
        · exact Or.inl ⟨hi, by simp⟩
      · rename_i hi
        split at h
        · cases h
        · rename_i he
          simp only [ne_eq, Decidable.not_not] at he
          exact Or.inr ⟨by omega, he⟩

/-- Every string `netip.parseIPv6` accepts without a zone is an IPv6 colon-hex
literal. -/
theorem parseIPv6_literal (input : List Nat) (a : Addr) (h : parseIPv6 input = some a)
    (hz : a.zone = []) : IsIPv6Literal input := by
  simp only [parseIPv6] at h
  split at h
  · cases h
  · rename_i s zone hsz
    have hzone : zone = [] → s = input := by
      intro hz
      split at hsz
      · simp only [Option.some.injEq, Prod.mk.injEq] at hsz
        exact hsz.1.symm
      · split at hsz
        · cases hsz
        · rename_i hne
          simp only [Option.some.injEq, Prod.mk.injEq] at hsz
          rw [hsz.2] at hne
          exact absurd hz hne
    by_cases hlead : s.length ≥ 2 ∧ s.getD 0 0 = 58 ∧ s.getD 1 0 = 58
    · simp only [hlead, and_self, decide_True, if_true, true_and] at h
      have e1 : s = 58 :: s.drop 1 := cons_drop_one s 58 (by omega) hlead.2.1
      have e2 : s.drop 1 = 58 :: (s.drop 1).drop 1 := by
        apply cons_drop_one
        · simp only [List.length_drop]; omega
        · rw [← hlead.2.2]
          conv => rhs; rw [e1]
          simp
      rw [List.drop_drop] at e2
      simp only [Nat.reduceAdd] at e2
      have hs : s = [58, 58] ++ s.drop 2 := by
        conv => lhs; rw [e1, e2]
        rfl
      split at h
      · rename_i hl0
        simp only [Option.some.injEq] at h
        subst h
        simp only at hz
        have hsi := hzone hz
        subst hsi
        right
        refine ⟨[], [], none, ⟨by simp, by simp⟩, ⟨by simp, by simp⟩, ?_, by simp [fieldWidth]⟩
        rw [List.length_eq_zero.mp hl0] at hs
        simpa [colonJoin] using hs
      · rename_i hl0
        have hne : s.drop 2 ≠ [] := by
          intro hn
          exact hl0 (by rw [hn]; rfl)
        have hza : a.zone = zone := (parseIPv6_finish _ _ _ _ h).2.2.1
        obtain ⟨i, ip, ellipsis, hloop, hfin⟩ := parseIPv6_finish_loop _ _ _ _ h
        have hsi := hzone (hza ▸ hz)
        subst hsi
        obtain ⟨_, hcase⟩ := parseIPv6Loop_shape _ _ _ _ _ _ _ _ hloop hne (by decide)
        rcases hcase with ⟨he1, gs, q, hfl, hs3, hi1⟩ | ⟨hnone, _⟩
        · right
          refine ⟨[], gs, q, ⟨by simp, by simp⟩, hfl, ?_, ?_⟩
          · rw [← hs3]
            simpa [colonJoin] using hs
          · rcases hfin with ⟨hi, _⟩ | ⟨_, hn⟩
            · simp only [List.length_nil]
              omega
            · rw [he1] at hn
              cases hn
        · cases hnone
    · simp only [hlead, decide_False, if_false, false_and] at h
      have hza : a.zone = zone := (parseIPv6_finish _ _ _ _ h).2.2.1
      obtain ⟨i, ip, ellipsis, hloop, hfin⟩ := parseIPv6_finish_loop _ _ _ _ h
      have hsi := hzone (hza ▸ hz)
      subst hsi
      have hne : s ≠ [] := by
        intro hn
        subst hn
        simp [parseIPv6Loop, hexLoop] at hloop
      obtain ⟨hle, hcase⟩ := parseIPv6Loop_shape _ _ _ _ _ _ _ _ hloop hne (by decide)
      rcases hcase with ⟨he1, gs, q, hfl, hs3, hi1⟩ | ⟨_, hsome, L, R, q, hL, hR, hs3, hi1⟩
      · left
        refine ⟨gs, q, hfl, hs3, ?_⟩
        rcases hfin with ⟨_, hn⟩ | ⟨hi, _⟩
        · exact absurd he1 hn
        · omega
      · right
        refine ⟨L, R, q, hL, hR, hs3, ?_⟩
        rcases hfin with ⟨hi, _⟩ | ⟨_, hn⟩
        · omega
        · exact absurd hn hsome

/-- Every string `net.ParseIP` accepts is a bare IPv4 dotted-quad literal or a
bare IPv6 colon-hex literal. -/
theorem ParseIP_literal (s ip : List Nat) (h : ParseIP s = some ip) :
    IsIPv4Literal s ∨ IsIPv6Literal s := by
  obtain ⟨_, _, _, a, ha, hz, _⟩ := ParseIP_some s ip h
  obtain ⟨_, hp⟩ := parseAddrScan_some s a s ha
  rcases hp with hp | hp
  · left
    simp only [parseIPv4] at hp
    split at hp
    · cases hp
    · rename_i f hf
      exact parseIPv4Fields_canonical s f hf
  · right
    exact parseIPv6_literal s a hp hz


theorem colonJoin_two (g h : List Nat) (rest : List (List Nat)) :
    58 ∈ colonJoin (g :: h :: rest) := by
  simp [colonJoin]

theorem isIPv6Literal_colon (s : List Nat) (h : IsIPv6Literal s) : 58 ∈ s := by
  rcases h with ⟨gs, q, _, hs, hw⟩ | ⟨L, R, q, _, _, hs, _⟩
  · have hq : q.toList.length ≤ 1 := by cases q <;> simp
    simp only [fieldWidth] at hw
    match gs, hw with
    | g :: h :: rest, _ =>
      rw [hs]
      exact colonJoin_two g h _
    | [g], hw =>
      simp only [List.length_singleton] at hw
      omega
    | [], hw =>
      simp only [List.length_nil] at hw
      omega
  · rw [hs]
    simp

theorem isIPv4Literal_parses (s : List Nat) (h : IsIPv4Literal s) : ParseIP s ≠ none := by
  obtain ⟨a, b, c, d, ha, hb, hc, hd, rfl⟩ := h
  rw [ParseIP_dottedQuad a b c d ha hb hc hd]
  simp

/-- C4: `IsNotificationIPTrusted` is a total function that fails closed, in
every package state.  For every input that is neither a bare IPv4 dotted-quad
literal (four numbers below 256, no leading zeros) nor a bare IPv6 colon-hex
literal, `net.ParseIP` returns nil and the answer is false.  More generally the
answer is false whenever `net.ParseIP` returns nil; that is so for the empty
string, for every string holding a byte other than a hex digit, a dot or a
colon (whitespace, brackets, other text) and for a dotted quad followed by a
colon and a port.  The malformed inputs of the test table, inputs with
surrounding whitespace, out-of-range octets, leading zeros, wrong field
counts and malformed colon-hex strings all evaluate to false. -/
theorem fails_closed (g : Pkg) :
    (∀ s, ¬ (IsIPv4Literal (str s) ∨ IsIPv6Literal (str s)) →
      ParseIP (str s) = none ∧ IsNotificationIPTrusted g s = false) ∧
    (∀ s, ParseIP (str s) = none → IsNotificationIPTrusted g s = false) ∧
    (∀ s, (str s = [] ∨ ∃ b ∈ str s, ¬ isLiteralByte b) →
      ParseIP (str s) = none ∧ IsNotificationIPTrusted g s = false) ∧
    (∀ a b c d port, a < 256 → b < 256 → c < 256 → d < 256 →
      IsNotificationIPTrusted g (dottedQuad a b c d ++ ":" ++ port) = false) ∧
    IsNotificationIPTrusted g "" = false ∧
    IsNotificationIPTrusted g "not-an-ip" = false ∧
    IsNotificationIPTrusted g "256.256.256.256" = false ∧
    IsNotificationIPTrusted g "185.71.76.5:8080" = false ∧
    IsNotificationIPTrusted g "[2a02:5180::1]:8080" = false ∧
    IsNotificationIPTrusted g " 185.71.76.5" = false ∧
    IsNotificationIPTrusted g "185.71.76.5 " = false ∧
    IsNotificationIPTrusted g " 2a02:5180::1 " = false ∧
    IsNotificationIPTrusted g "185.71.76.261" = false ∧
    IsNotificationIPTrusted g "77.75.156.267" = false ∧
    IsNotificationIPTrusted g "185.071.76.5" = false ∧
    IsNotificationIPTrusted g "185.71.76" = false ∧
    IsNotificationIPTrusted g "185.71.76.5.1" = false ∧
    IsNotificationIPTrusted g "185.71.76." = false ∧
    IsNotificationIPTrusted g "abcdef" = false ∧
    IsNotificationIPTrusted g "2a02:5180" = false ∧
    IsNotificationIPTrusted g "2a02:5180:::1" = false ∧
    IsNotificationIPTrusted g "2a02:5180::1::" = false ∧
    IsNotificationIPTrusted g "2a02:51800::1" = false ∧
    IsNotificationIPTrusted g "2a02:5180::1%eth0" = false := by
  have hnone : ∀ s, ParseIP (str s) = none → IsNotificationIPTrusted g s = false := by
    intro s h
    simp [IsNotificationIPTrusted, h]
  refine ⟨?_, hnone, ?_, ?_, ?_, ?_, ?_, ?_, ?_, ?_, ?_, ?_, ?_, ?_, ?_, ?_, ?_, ?_, ?_, ?_, ?_,
    ?_, ?_, ?_⟩
  · intro s h
    have hp : ParseIP (str s) = none := by
      cases hp : ParseIP (str s) with
      | none => rfl
      | some ip => exact absurd (ParseIP_literal _ _ hp) h
    exact ⟨hp, hnone s hp⟩
  · intro s h
    have hp : ParseIP (str s) = none := by
      cases hp : ParseIP (str s) with
      | none => rfl
      | some ip =>
        obtain ⟨_, hne, hall, _⟩ := ParseIP_some _ _ hp
        rcases h with h | ⟨b, hb, hnot⟩
        · exact absurd h hne
        · exact absurd (hall b hb) hnot
    exact ⟨hp, hnone s hp⟩
  · intro a b c d port ha _ _ _
    exact hnone _ (ParseIP_with_port a b c d ha port)
  all_goals exact hnone _ (by decide)

theorem fails_closed_witness :
    ¬ (IsIPv4Literal (str "185.71.76.261") ∨ IsIPv6Literal (str "185.71.76.261")) ∧
    IsNotificationIPTrusted loaded "185.71.76.261" = false :=
  have hnot : ¬ (IsIPv4Literal (str "185.71.76.261") ∨ IsIPv6Literal (str "185.71.76.261")) :=
    fun h => h.elim
      (fun h4 => isIPv4Literal_parses _ h4 (by decide))
      (fun h6 => absurd (isIPv6Literal_colon _ h6) (by decide))
  ⟨hnot, ((fails_closed loaded).1 "185.71.76.261" hnot).2⟩

/-- C8, as stated, fails: 201 (Created) is a success code, and when the HTTP
client answers with status 201 and a body every decoder accepts, each of the
six operations returns no entity and the error `GetError` gives. -/
theorem status_201_takes_error_path :
    ((natDeps 201).decodePayout (5 : Nat) = Except.ok (5 : Nat)) ∧
    ((natDeps 201).decodeSbpBankList (5 : Nat) = Except.ok (5 : Nat)) ∧
    (readThen (natDeps 201) (natDeps 201).unmarshalRefund (5 : Nat) = Except.ok (1 : Nat)) ∧
    (readThen (natDeps 201) (natDeps 201).unmarshalRefundList (5 : Nat) = Except.ok (1 : Nat)) ∧
    ((PayoutHandler.GetSbpBanksCtx (natDeps 201) ⟨(7 : Nat), ""⟩ (0 : Nat)).value = none ∧
     (PayoutHandler.GetSbpBanksCtx (natDeps 201) ⟨(7 : Nat), ""⟩ (0 : Nat)).err
        = some (GoError.external 5)) ∧
    ((PayoutHandler.CreatePayoutCtx (natDeps 201) ⟨(7 : Nat), ""⟩ (0 : Nat) (0 : Nat)).value = none ∧
     (PayoutHandler.CreatePayoutCtx (natDeps 201) ⟨(7 : Nat), ""⟩ (0 : Nat) (0 : Nat)).err
        = some (GoError.external 5) ∧
     (PayoutHandler.CreatePayoutCtx (natDeps 201) ⟨(7 : Nat), ""⟩ (0 : Nat) (0 : Nat)).sent.length
        = 1) ∧
    ((PayoutHandler.GetPayoutCtx (natDeps 201) ⟨(7 : Nat), ""⟩ (0 : Nat) "id").value = none ∧
     (PayoutHandler.GetPayoutCtx (natDeps 201) ⟨(7 : Nat), ""⟩ (0 : Nat) "id").err
        = some (GoError.external 5)) ∧
    ((RefundHandler.CreateRefundCtx (natDeps 201) ⟨(7 : Nat), ""⟩ (0 : Nat) (3 : Nat)).value = none ∧
     (RefundHandler.CreateRefundCtx (natDeps 201) ⟨(7 : Nat), ""⟩ (0 : Nat) (3 : Nat)).err
        = some (GoError.external 5)) ∧
    ((RefundHandler.FindRefundCtx (natDeps 201) ⟨(7 : Nat), ""⟩ (0 : Nat) "id").value = none ∧
     (RefundHandler.FindRefundCtx (natDeps 201) ⟨(7 : Nat), ""⟩ (0 : Nat) "id").err
        = some (GoError.external 5)) ∧
    ((RefundHandler.FindRefundsCtx (natDeps 201) ⟨(7 : Nat), ""⟩ (0 : Nat) (4 : Nat)).value = none ∧
     (RefundHandler.FindRefundsCtx (natDeps 201) ⟨(7 : Nat), ""⟩ (0 : Nat) (4 : Nat)).err
        = some (GoError.external 5)) :=
  ⟨rfl, rfl, rfl, rfl, ⟨rfl, rfl⟩, ⟨rfl, rfl, rfl⟩, ⟨rfl, rfl⟩, ⟨rfl, rfl⟩, ⟨rfl, rfl⟩,
    ⟨rfl, rfl⟩⟩

end Yookassa
